import Mathlib

/-!
Verification of the ol-transform interaction core (src/src/features/HandleFeature.ts).

The file shallowly embeds the geometry utilities, the oriented-bounding-box
construction, the handle generation and the pointer-gesture state machine of
the `Transform` class over exact real arithmetic (JavaScript numbers are
modelled as real numbers), and proves or refutes the frozen claims about it.
-/

open Classical

noncomputable section

namespace OlTransform

/-- A planar coordinate, as in ol's `Coordinate` (a pair of numbers). -/
abbrev Pt : Type := ℝ × ℝ

/-- The private `Transform.rotatePoint` helper: rotate `p` by `angle`
counter-clockwise around `anchor` (this is also exactly the formula ol's
`Geometry.rotate` applies to every coordinate). -/
def rotatePoint (p : Pt) (anchor : Pt) (angle : ℝ) : Pt :=
  ((p.1 - anchor.1) * Real.cos angle - (p.2 - anchor.2) * Real.sin angle + anchor.1,
   (p.1 - anchor.1) * Real.sin angle + (p.2 - anchor.2) * Real.cos angle + anchor.2)

/-- The formula ol's `Geometry.scale sx sy anchor` applies to every coordinate. -/
def scalePoint (sx sy : ℝ) (anchor : Pt) (p : Pt) : Pt :=
  (anchor.1 + sx * (p.1 - anchor.1), anchor.2 + sy * (p.2 - anchor.2))

/-- The formula ol's `Geometry.translate dx dy` applies to every coordinate. -/
def translatePoint (dx dy : ℝ) (p : Pt) : Pt :=
  (p.1 + dx, p.2 + dy)

/-- Minimum of a seed value and a list (fold of `min`, as an extent computation
accumulates it). -/
def listMin (x : ℝ) (l : List ℝ) : ℝ := l.foldl min x

/-- Maximum of a seed value and a list. -/
def listMax (x : ℝ) (l : List ℝ) : ℝ := l.foldl max x

/-- An ol extent `[minX, minY, maxX, maxY]`. -/
structure Extent where
  minX : ℝ
  minY : ℝ
  maxX : ℝ
  maxY : ℝ

/-- The axis-aligned extent of a coordinate list (`Geometry.getExtent`); the
empty geometry never occurs on the paths the claims exercise. -/
def extentOf : List Pt → Extent
  | [] => ⟨0, 0, 0, 0⟩
  | p :: l =>
      ⟨listMin p.1 (l.map Prod.fst), listMin p.2 (l.map Prod.snd),
       listMax p.1 (l.map Prod.fst), listMax p.2 (l.map Prod.snd)⟩

/-- ol's `getCenter` of an extent. -/
def getCenterE (e : Extent) : Pt := ((e.minX + e.maxX) / 2, (e.minY + e.maxY) / 2)

/-- ol's `fromExtent`: the closed rectangle ring of an extent. -/
def fromExtent (e : Extent) : List Pt :=
  [(e.minX, e.minY), (e.minX, e.maxY), (e.maxX, e.maxY), (e.maxX, e.minY), (e.minX, e.minY)]

/-- The util `rearrangeCoords`: canonical reordering of four corners into the
closed ring topLeft, bottomLeft, bottomRight, topRight, topLeft built from the
min/max of the first four coordinates. -/
def rearrangeCoords (coords : List Pt) : List Pt :=
  let c0 := coords.getD 0 (0, 0)
  let c1 := coords.getD 1 (0, 0)
  let c2 := coords.getD 2 (0, 0)
  let c3 := coords.getD 3 (0, 0)
  let mnX := min (min c0.1 c1.1) (min c2.1 c3.1)
  let mxX := max (max c0.1 c1.1) (max c2.1 c3.1)
  let mnY := min (min c0.2 c1.2) (min c2.2 c3.2)
  let mxY := max (max c0.2 c1.2) (max c2.2 c3.2)
  [(mnX, mxY), (mnX, mnY), (mxX, mnY), (mxX, mxY), (mnX, mxY)]

/-- The util `calcSize`: absolute axis-aligned width and height between two
coordinates. -/
def calcSize (c1 c2 : Pt) : ℝ × ℝ := (|c1.1 - c2.1|, |c1.2 - c2.2|)

/-- The util `calcDistance`: Euclidean distance between two coordinates. -/
def calcDistance (c1 c2 : Pt) : ℝ :=
  Real.sqrt ((calcSize c1 c2).1 ^ 2 + (calcSize c1 c2).2 ^ 2)

/-- Center of ol's `boundingExtent` of two points,
as `getCenter(boundingExtent([p, q]))` computes a ring midpoint. -/
def center2 (p q : Pt) : Pt :=
  ((min p.1 q.1 + max p.1 q.1) / 2, (min p.2 q.2 + max p.2 q.2) / 2)

/-- The private `Transform.calcScaleHandleCoord`: the ring position of scale
handle `handleIdx` on the canonical five-point box ring. -/
def calcScaleHandleCoord (coords : List Pt) (handleIdx : Nat) : Pt :=
  let tl := coords.getD 0 (0, 0)
  let bl := coords.getD 1 (0, 0)
  let br := coords.getD 2 (0, 0)
  let tr := coords.getD 3 (0, 0)
  match handleIdx with
  | 0 => tl
  | 1 => center2 tl bl
  | 2 => bl
  | 3 => center2 bl br
  | 4 => br
  | 5 => center2 br tr
  | 6 => tr
  | 7 => center2 tr tl
  | _ => (0, 0)

/-- JavaScript's remainder operator on numbers: `a - b * truncate(a / b)`; the
result carries the sign of the dividend (unlike a mathematical modulus). -/
def jsMod (a b : ℝ) : ℝ :=
  if 0 ≤ a / b then a - b * (⌊a / b⌋ : ℤ) else a - b * (⌈a / b⌉ : ℤ)

/-- JavaScript's `Math.atan2(y, x)`. -/
def atan2 (y x : ℝ) : ℝ :=
  if 0 < x then Real.arctan (y / x)
  else if x < 0 then
    (if 0 ≤ y then Real.arctan (y / x) + Real.pi else Real.arctan (y / x) - Real.pi)
  else
    (if 0 < y then Real.pi / 2 else if y < 0 then -(Real.pi / 2) else 0)

/-- Oriented-bounding-box construction shared by `handleDownEvent` (scale
branch), `handleDragEvent` (scale branch) and `genHandles`: de-rotate a clone
around the center of the raw extent, take the axis-aligned extent, build and
canonically reorder its rectangle, rotate it back by the stored angle. -/
def orientedBoxCoords (g : List Pt) (angle : ℝ) : List Pt :=
  let c := getCenterE (extentOf g)
  let normalGeo := g.map (fun p => rotatePoint p c (-angle))
  let e := extentOf normalGeo
  (rearrangeCoords (fromExtent e)).map (fun p => rotatePoint p c angle)

/-- The canonical five-point box ring of an extent (what `rearrangeCoords`
returns on a rectangle ring of the extent). -/
def boxRing (e : Extent) : List Pt :=
  [(e.minX, e.maxY), (e.minX, e.minY), (e.maxX, e.minY), (e.maxX, e.maxY), (e.minX, e.maxY)]

/-- The `TransformMode` string union; `idle` stands for the empty string. -/
inductive Mode where
  | idle
  | translate
  | rotate
  | scale
deriving DecidableEq, Repr

/-- A body feature: identity (JavaScript object identity, used by `indexOf`),
a geometry (a `Point` is a one-coordinate geometry with `isPoint` set), and the
optional `angle` attribute read by `feat.get("angle")`. -/
structure Feat where
  fid : Nat
  isPoint : Bool
  geom : List Pt
  angleAttr : Option ℝ

/-- A `HandleFeature` of the overlay layer: geometry, owning body, mode tag and
scale-ring index (`-1` when not a scale handle). -/
structure HandleF where
  hIsPoint : Bool
  hGeom : List Pt
  bodyFid : Nat
  hMode : Mode
  index : Int

/-- The `TransformEventType` union. -/
inductive EvType where
  | mousedown
  | mousemove
  | mouseup
  | transformstart
  | transforming
  | transformend
  | translatestart
  | translating
  | translateend
  | rotatestart
  | rotating
  | rotateend
  | scalestart
  | scaling
  | scaleend
deriving DecidableEq, Repr

/-- What `forEachFeatureAtPixel`'s callback got run on: nothing under the
pointer, a handle of the overlay layer, or a body feature (the hit test itself
is an external collaborator of the core). -/
inductive HitInput where
  | nothing
  | handleHit (m : Mode) (idx : Nat) (body : Feat)
  | bodyHit (f : Feat)

/-- The value `selectFeature` returns to `handleDownEvent`. -/
inductive HitResult where
  | isHandle (m : Mode) (idx : Nat) (body : Feat)
  | isBody (f : Feat)

/-- The `_rotationSelection` record. -/
structure RotationSel where
  angle : ℝ
  center : Pt

/-- The `_scalingSelection` record. -/
structure ScalingSel where
  angle : ℝ
  w : ℝ
  h : ℝ
  handleIdx : Nat
  oppositeIdx : Nat
  oppositeCoord : Pt
  startCoord : Pt

/-- The mutable fields of the `Transform` interaction, plus the trace of
notifications it has dispatched. -/
structure TransformState where
  selections : List Feat
  prevSelections : List Feat
  mode : Mode
  isTransformed : Bool
  startCoord : Pt
  prevCoord : Pt
  rotationSelection : RotationSel
  scalingSelection : ScalingSel
  headInverted : Bool
  handleSource : List HandleF
  events : List EvType

/-- A fresh `Transform` (constructor defaults). -/
def initState : TransformState where
  selections := []
  prevSelections := []
  mode := .idle
  isTransformed := false
  startCoord := (0, 0)
  prevCoord := (0, 0)
  rotationSelection := ⟨0, (0, 0)⟩
  scalingSelection := ⟨0, 0, 0, 0, 0, (0, 0), (0, 0)⟩
  headInverted := false
  handleSource := []
  events := []

/-- The `genTranslateHandle` overlay entity (styling dropped): a point glyph
for point bodies, an extent outline polygon for area bodies. -/
def genTranslateHandle (feat : Feat) : HandleF :=
  if feat.isPoint then ⟨true, feat.geom, feat.fid, .translate, -1⟩
  else ⟨false, fromExtent (extentOf feat.geom), feat.fid, .translate, -1⟩

/-- The `genHandles` overlay entities for the primary selected shape: none for
a point body, otherwise one rotate handle at ring position 7 and eight indexed
scale handles on the oriented box ring. -/
def genHandles (feat : Feat) : List HandleF :=
  if feat.isPoint then []
  else
    let angle := feat.angleAttr.getD 0
    let coords := orientedBoxCoords feat.geom angle
    ⟨true, [calcScaleHandleCoord coords 7], feat.fid, .rotate, -1⟩ ::
      (List.range 8).map (fun i => ⟨true, [calcScaleHandleCoord coords i], feat.fid, .scale, i⟩)

/-- The `drawHandles` redraw: clear the overlay source and repopulate it, full
rotate/scale handle set for the first selected shape only, one translate
handle per selected shape. -/
def drawHandles (sels : List Feat) : List HandleF :=
  (sels.enum.map (fun pr =>
    (if pr.1 = 0 then genHandles pr.2 else []) ++ [genTranslateHandle pr.2])).flatten

/-- The selection-mutation logic of `selectFeature`'s hit callback. Besides the
updated selection and the returned entity it reports whether the selection
collection fired any add/remove event (which re-runs `drawHandles`). -/
def selectFeature (sels : List Feat) (hit : HitInput) (add : Bool) :
    List Feat × Option HitResult × Bool :=
  match hit with
  | .nothing => (sels, none, false)
  | .handleHit m idx body => (sels, some (.isHandle m idx body), false)
  | .bodyHit f =>
      let i := sels.findIdx (fun s => s.fid = f.fid)
      if i < sels.length then
        if add then (sels.eraseIdx i, some (.isBody f), true)
        else (sels, some (.isBody f), false)
      else
        if add then (sels ++ [f], some (.isBody f), true)
        else ([f], some (.isBody f), true)

/-- The notifications `handleDownEvent` dispatches after mode selection. -/
def startEvents : Mode → List EvType
  | .translate => [.translatestart, .transformstart]
  | .rotate => [.rotatestart, .transformstart]
  | .scale => [.scalestart, .transformstart]
  | .idle => [.transformstart]

/-- The notifications `handleDragEvent` dispatches after a frame. -/
def duringEvents : Mode → List EvType
  | .translate => [.translating, .transforming]
  | .rotate => [.rotating, .transforming]
  | .scale => [.scaling, .transforming]
  | .idle => [.transforming]

/-- The notifications `handleUpEvent` dispatches when the gesture transformed. -/
def endEvents : Mode → List EvType
  | .translate => [.translateend, .transformend]
  | .rotate => [.rotateend, .transformend]
  | .scale => [.scaleend, .transformend]
  | .idle => [.transformend]

/-- The `handleDownEvent` handler: run the selection policy, snapshot the
selection, dispatch `mousedown`, then pick the mode, seed its drag state from
the grabbed body's geometry, and dispatch the start notifications. Returns
whether a down-up sequence starts (the host delivers drag/up events only
then). -/
def handleDownEvent (st : TransformState) (coord : Pt) (hit : HitInput) (add : Bool) :
    TransformState × Bool :=
  let sfr := selectFeature st.selections hit add
  let sels1 := sfr.1
  let res := sfr.2.1
  let mutated := sfr.2.2
  let sels2 := if res.isNone then [] else sels1
  let redraw := mutated ∨ (res.isNone ∧ sels1 ≠ [])
  let hs1 := if redraw then drawHandles sels2 else st.handleSource
  let st1 := { st with
    selections := sels2
    prevSelections := sels2
    handleSource := hs1
    events := st.events ++ [EvType.mousedown] }
  match res with
  | none => (st1, false)
  | some r =>
      let st2 := { st1 with startCoord := coord }
      let st3 :=
        match r with
        | .isBody _ => { st2 with mode := .translate, prevCoord := coord }
        | .isHandle m idx body =>
            match m with
            | .translate => { st2 with mode := m, prevCoord := coord }
            | .rotate =>
                let center := getCenterE (extentOf body.geom)
                { st2 with mode := m, rotationSelection :=
                    ⟨atan2 (coord.2 - center.2) (coord.1 - center.1), center⟩ }
            | .scale =>
                let angle := body.angleAttr.getD 0
                let coords := orientedBoxCoords body.geom angle
                let oppositeIdx := (idx + 4) % 8
                let oppositeCoord := calcScaleHandleCoord coords oppositeIdx
                let sC := rotatePoint (calcScaleHandleCoord coords idx) oppositeCoord (-angle)
                { st2 with mode := m, scalingSelection :=
                    ⟨angle,
                     calcDistance (coords.getD 1 (0, 0)) (coords.getD 2 (0, 0)),
                     calcDistance (coords.getD 0 (0, 0)) (coords.getD 1 (0, 0)),
                     idx, oppositeIdx, oppositeCoord, sC⟩ }
            | .idle => { st2 with mode := m }
      ({ st3 with events := st3.events ++ startEvents st3.mode }, true)

/-- The per-handle sign rule of the scale branch of `handleDragEvent`: raw
deltas from the start coordinate `s` and the local pointer `p`. -/
def scaleDeltas (handleIdx : Nat) (s p : Pt) : ℝ × ℝ :=
  match handleIdx with
  | 0 => (s.1 - p.1, p.2 - s.2)
  | 1 => (s.1 - p.1, 0)
  | 2 => (s.1 - p.1, s.2 - p.2)
  | 3 => (0, s.2 - p.2)
  | 4 => (p.1 - s.1, s.2 - p.2)
  | 5 => (p.1 - s.1, 0)
  | 6 => (p.1 - s.1, p.2 - s.2)
  | 7 => (0, p.2 - s.2)
  | _ => (0, 0)

/-- The scale factors a drag frame at pointer position `coord` computes from
the recorded `_scalingSelection`. -/
def scaleFactorsAt (sc : ScalingSel) (coord : Pt) : ℝ × ℝ :=
  let lp := rotatePoint coord sc.oppositeCoord (-sc.angle)
  let d := scaleDeltas sc.handleIdx sc.startCoord lp
  (d.1 / sc.w + 1, d.2 / sc.h + 1)

/-- The per-shape body of the scale branch of `handleDragEvent`: rebuild the
snapshot shape's own oriented box, anchor at its own opposite ring position,
de-rotate, scale, re-rotate. -/
def applyScaleToShape (oppositeIdx : Nat) (scaleX scaleY : ℝ) (f : Feat) : List Pt :=
  let angle := f.angleAttr.getD 0
  let coords := orientedBoxCoords f.geom angle
  let oc := calcScaleHandleCoord coords oppositeIdx
  ((f.geom.map (fun p => rotatePoint p oc (-angle))).map
      (scalePoint scaleX scaleY oc)).map (fun p => rotatePoint p oc angle)

/-- The `handleDragEvent` handler: clear the overlay source, mark the gesture
as transformed, apply the mode's per-frame geometry update, dispatch the
during notifications. In rotate mode the snapshot shape's `angle` attribute is
overwritten (the source's `sel.set` targets the `_prevSelections` element) and
the live shape's geometry is replaced; in scale mode each pair is scaled about
the snapshot shape's own anchor. -/
def handleDragEvent (st : TransformState) (coord : Pt) : TransformState :=
  let st0 := { st with handleSource := [], isTransformed := true }
  let st1 :=
    match st0.mode with
    | .translate =>
        let dx := coord.1 - st0.prevCoord.1
        let dy := coord.2 - st0.prevCoord.2
        { st0 with
          prevCoord := coord
          selections := st0.selections.map (fun (s : Feat) =>
            { s with geom := s.geom.map (translatePoint dx dy) }) }
    | .rotate =>
        let da := atan2 (coord.2 - st0.rotationSelection.center.2)
            (coord.1 - st0.rotationSelection.center.1) - st0.rotationSelection.angle
        { st0 with
          selections := List.zipWith (fun (prev live : Feat) =>
            { live with geom :=
                prev.geom.map (fun p =>
                  rotatePoint p (getCenterE (extentOf prev.geom)) da) })
            st0.prevSelections st0.selections
          prevSelections := st0.prevSelections.map (fun (prev : Feat) =>
            match prev.angleAttr with
            | some a => { prev with angleAttr := some (jsMod (a + da) (2 * Real.pi)) }
            | none => prev) }
    | .scale =>
        let sc := st0.scalingSelection
        let f := scaleFactorsAt sc coord
        { st0 with
          headInverted := if f.2 < 0 then true else false
          selections := List.zipWith (fun (prev live : Feat) =>
            { live with geom := applyScaleToShape sc.oppositeIdx f.1 f.2 prev })
            st0.prevSelections st0.selections }
    | .idle => st0
  { st1 with events := st1.events ++ duringEvents st1.mode }

/-- The `handleUpEvent` handler: head-inversion correction (only for shapes
whose `angle` attribute is defined), `mouseup`, the end notifications when at
least one drag frame ran, a final redraw, and the mode reset. Note that only
`_mode` and `_isTransformed` are reset; the drag-state records (including
`_headInverted`) keep their values. -/
def handleUpEvent (st : TransformState) : TransformState :=
  let st1 :=
    if st.mode = Mode.scale ∧ st.headInverted then
      { st with selections := st.selections.map (fun sel =>
          match sel.angleAttr with
          | some a =>
              { sel with
                geom := sel.geom.map (fun p =>
                  rotatePoint p (getCenterE (extentOf sel.geom)) Real.pi)
                angleAttr := some (jsMod (a + Real.pi) (2 * Real.pi)) }
          | none => sel) }
    else st
  let st2 := { st1 with events := st1.events ++ [EvType.mouseup] }
  let st3 :=
    if st2.isTransformed then { st2 with events := st2.events ++ endEvents st2.mode }
    else st2
  { st3 with
    handleSource := drawHandles st3.selections
    mode := .idle
    isTransformed := false }

/-- One full pointer gesture under the host's `PointerInteraction` contract:
drag frames and the up event are delivered only when the down handler returned
`true`. -/
def runGesture (st : TransformState) (coord : Pt) (hit : HitInput) (add : Bool)
    (drags : List Pt) : TransformState :=
  let dr := handleDownEvent st coord hit add
  if dr.2 then handleUpEvent (drags.foldl handleDragEvent dr.1) else dr.1

/-- Whether a notification is one of the end notifications. -/
def isEndEv : EvType → Bool
  | .translateend => true
  | .rotateend => true
  | .scaleend => true
  | .transformend => true
  | _ => false

/-- The last element of a pointer-position list, or a default when no frame
was delivered. -/
def lastOr : List Pt → Pt → Pt
  | [], d => d
  | p :: l, _ => lastOr l p

/-- Test fixture: the axis-aligned unit-10 square used by the spec scenarios. -/
def sqGeom : List Pt := [(0, 0), (10, 0), (10, 10), (0, 10)]

/-- Test fixture: the square as a body feature carrying `angle = 0`. -/
def sqA : Feat := ⟨1, false, sqGeom, some 0⟩

/-- Test fixture: the same square without an `angle` attribute. -/
def sqN : Feat := ⟨2, false, sqGeom, none⟩

/-- Test fixture: a second, disjoint square with `angle = 0`. -/
def sqB : Feat := ⟨3, false, [(20, 0), (30, 0), (30, 10), (20, 10)], some 0⟩

/-- Test fixture: a fresh interaction whose selection is the angled square. -/
def stA : TransformState := { initState with selections := [sqA] }

/-- Test fixture: a fresh interaction selecting the attribute-free square. -/
def stN : TransformState := { initState with selections := [sqN] }

/-- Test fixture: a fresh interaction selecting both squares. -/
def stAB : TransformState := { initState with selections := [sqA, sqB] }

/-- The delta angle a rotate drag frame at pointer position `c` computes from
the recorded `_rotationSelection` (current atan2 minus initial angle). -/
def deltaAngleAt (st : TransformState) (c : Pt) : ℝ :=
  atan2 (c.2 - st.rotationSelection.center.2) (c.1 - st.rotationSelection.center.1) -
    st.rotationSelection.angle

/-- Test fixture: the state after grabbing the square's rotate handle at
`(5, 10)` (pivot `(5, 5)`, initial angle `π/2`). -/
def stR1 : TransformState :=
  { stA with
      prevSelections := [sqA]
      mode := Mode.rotate
      startCoord := (5, 10)
      rotationSelection := ⟨Real.pi / 2, (5, 5)⟩
      events := [EvType.mousedown, EvType.rotatestart, EvType.transformstart] }

/-- Test fixture: the drag state recorded when the top-mid scale handle
(ring index 7) of the fixture square is grabbed. -/
def scaleSel1 : ScalingSel := ⟨0, 10, 10, 7, 3, (5, 0), (5, 10)⟩

/-- Test fixture: the drag state recorded when the corner scale handle at
`(10, 10)` (ring index 6) of the fixture square is grabbed. -/
def scaleSel6 : ScalingSel := ⟨0, 10, 10, 6, 2, (0, 0), (10, 10)⟩

/-- Test fixture: the square after the flip drag (vertical factor `-1`
anchored at `(5, 0)`). -/
def sqA1 : Feat := { sqA with geom := [(0, 0), (10, 0), (10, -10), (0, -10)] }

/-- Test fixture: the flipped square after the release half-turn correction. -/
def sqA2 : Feat :=
  { sqA with geom := [(10, -10), (0, -10), (0, 0), (10, 0)], angleAttr := some Real.pi }

/-- Test fixture: the state after grabbing the square's ring-7 scale handle at
`(5, 10)`. -/
def stG1 : TransformState :=
  { stA with
      prevSelections := [sqA]
      mode := Mode.scale
      startCoord := (5, 10)
      scalingSelection := scaleSel1
      events := [EvType.mousedown, EvType.scalestart, EvType.transformstart] }

/-- Test fixture: the state after the flip drag frame to `(5, -10)`. -/
def stG2 : TransformState :=
  { stG1 with
      isTransformed := true
      headInverted := true
      selections := [sqA1]
      events := stG1.events ++ duringEvents Mode.scale }

/-- Rotating by the zero angle is the identity. -/
lemma rotatePoint_zero (p c : Pt) : rotatePoint p c 0 = p := by
  simp [rotatePoint]

/-- The anchor itself is fixed by any rotation about it. -/
lemma rotatePoint_anchor (c : Pt) (θ : ℝ) : rotatePoint c c θ = c := by
  simp [rotatePoint]

/-- Rotating by `θ` around `P` and then by `-θ` around any `C` is a
translation, namely by the image of the origin. -/
lemma rotatePoint_comp_neg (θ : ℝ) (P C p : Pt) :
    rotatePoint (rotatePoint p P θ) C (-θ) =
      (p.1 + (rotatePoint (rotatePoint (0, 0) P θ) C (-θ)).1,
       p.2 + (rotatePoint (rotatePoint (0, 0) P θ) C (-θ)).2) := by
  obtain ⟨px, py⟩ := p
  obtain ⟨Px, Py⟩ := P
  obtain ⟨Cx, Cy⟩ := C
  have h := Real.sin_sq_add_cos_sq θ
  simp only [rotatePoint, Real.cos_neg, Real.sin_neg, Prod.mk.injEq]
  refine ⟨?_, ?_⟩
  · linear_combination px * h
  · linear_combination py * h

/-- Rotating by `-θ` around `P` and then by `θ` around any `C` is likewise a
translation by the image of the origin. -/
lemma rotatePoint_neg_comp (θ : ℝ) (P C p : Pt) :
    rotatePoint (rotatePoint p P (-θ)) C θ =
      (p.1 + (rotatePoint (rotatePoint (0, 0) P (-θ)) C θ).1,
       p.2 + (rotatePoint (rotatePoint (0, 0) P (-θ)) C θ).2) := by
  have h := rotatePoint_comp_neg (-θ) P C p
  rwa [neg_neg] at h

/-- Undoing a rotation about the same anchor restores the point. -/
lemma rotatePoint_cancel (θ : ℝ) (C p : Pt) :
    rotatePoint (rotatePoint p C θ) C (-θ) = p := by
  obtain ⟨px, py⟩ := p
  obtain ⟨Cx, Cy⟩ := C
  have h := Real.sin_sq_add_cos_sq θ
  simp only [rotatePoint, Real.cos_neg, Real.sin_neg, Prod.mk.injEq]
  refine ⟨?_, ?_⟩
  · linear_combination (px - Cx) * h
  · linear_combination (py - Cy) * h

/-- Applying a rotation about an anchor after its inverse restores the point. -/
lemma rotatePoint_cancel_left (θ : ℝ) (C p : Pt) :
    rotatePoint (rotatePoint p C (-θ)) C θ = p := by
  have h := rotatePoint_cancel (-θ) C p
  rwa [neg_neg] at h

/-- Rotation about an anchor commutes with taking midpoints. -/
lemma rotatePoint_midpoint (θ : ℝ) (C p q : Pt) :
    rotatePoint ((p.1 + q.1) / 2, (p.2 + q.2) / 2) C θ =
      (((rotatePoint p C θ).1 + (rotatePoint q C θ).1) / 2,
       ((rotatePoint p C θ).2 + (rotatePoint q C θ).2) / 2) := by
  simp only [rotatePoint, Prod.mk.injEq]
  constructor <;> ring

/-- The two-point bounding-extent center is the midpoint. -/
lemma center2_eq_midpoint (p q : Pt) :
    center2 p q = ((p.1 + q.1) / 2, (p.2 + q.2) / 2) := by
  simp only [center2, min_add_max]

/-- A fold of `min` stays below its seed. -/
lemma listMin_le_seed (x : ℝ) (l : List ℝ) : listMin x l ≤ x := by
  induction l generalizing x with
  | nil => simp [listMin]
  | cons a l ih =>
      have h1 : listMin x (a :: l) = listMin (min x a) l := rfl
      rw [h1]
      exact le_trans (ih (min x a)) (min_le_left _ _)

/-- A fold of `max` stays above its seed. -/
lemma seed_le_listMax (x : ℝ) (l : List ℝ) : x ≤ listMax x l := by
  induction l generalizing x with
  | nil => simp [listMax]
  | cons a l ih =>
      have h1 : listMax x (a :: l) = listMax (max x a) l := rfl
      rw [h1]
      exact le_trans (le_max_left _ _) (ih (max x a))

/-- The fold of `min` is below the fold of `max` over the same data. -/
lemma listMin_le_listMax (x : ℝ) (l : List ℝ) : listMin x l ≤ listMax x l := by
  calc listMin x l ≤ x := listMin_le_seed x l
  _ ≤ listMax x l := seed_le_listMax x l

/-- A monotone map commutes with the `min` fold. -/
lemma listMin_map_mono (f : ℝ → ℝ) (hf : Monotone f) (x : ℝ) (l : List ℝ) :
    listMin (f x) (l.map f) = f (listMin x l) := by
  induction l generalizing x with
  | nil => rfl
  | cons a l ih =>
      show listMin (min (f x) (f a)) (l.map f) = f (listMin (min x a) l)
      rw [← hf.map_min, ih]

/-- A monotone map commutes with the `max` fold. -/
lemma listMax_map_mono (f : ℝ → ℝ) (hf : Monotone f) (x : ℝ) (l : List ℝ) :
    listMax (f x) (l.map f) = f (listMax x l) := by
  induction l generalizing x with
  | nil => rfl
  | cons a l ih =>
      show listMax (max (f x) (f a)) (l.map f) = f (listMax (max x a) l)
      rw [← hf.map_max, ih]

/-- The extent of a coordinatewise monotone image of a nonempty geometry is the
image of the extent. -/
lemma extentOf_map_mono (f g : ℝ → ℝ) (hf : Monotone f) (hg : Monotone g)
    (p : Pt) (l : List Pt) :
    extentOf ((p :: l).map (fun q => (f q.1, g q.2))) =
      ⟨f (extentOf (p :: l)).minX, g (extentOf (p :: l)).minY,
       f (extentOf (p :: l)).maxX, g (extentOf (p :: l)).maxY⟩ := by
  have hfst : (l.map (fun q : Pt => (f q.1, g q.2))).map Prod.fst =
      (l.map Prod.fst).map f := by
    simp [List.map_map]
  have hsnd : (l.map (fun q : Pt => (f q.1, g q.2))).map Prod.snd =
      (l.map Prod.snd).map g := by
    simp [List.map_map]
  simp only [List.map_cons, extentOf, hfst, hsnd,
    listMin_map_mono f hf, listMin_map_mono g hg,
    listMax_map_mono f hf, listMax_map_mono g hg]

/-- The corners of the extent of a nonempty geometry are ordered. -/
lemma extentOf_minX_le_maxX (p : Pt) (l : List Pt) :
    (extentOf (p :: l)).minX ≤ (extentOf (p :: l)).maxX := by
  simpa [extentOf] using listMin_le_listMax p.1 (l.map Prod.fst)

/-- The vertical bounds of the extent of a nonempty geometry are ordered. -/
lemma extentOf_minY_le_maxY (p : Pt) (l : List Pt) :
    (extentOf (p :: l)).minY ≤ (extentOf (p :: l)).maxY := by
  simpa [extentOf] using listMin_le_listMax p.2 (l.map Prod.snd)

/-- On the ring `fromExtent` produces, `rearrangeCoords` computes the canonical
box ring, provided the extent bounds are ordered. -/
lemma rearrangeCoords_fromExtent (e : Extent)
    (hx : e.minX ≤ e.maxX) (hy : e.minY ≤ e.maxY) :
    rearrangeCoords (fromExtent e) = boxRing e := by
  simp [rearrangeCoords, fromExtent, boxRing, min_self, max_self,
    min_eq_left hx, max_eq_right hx, min_eq_left hy, max_eq_right hy,
    min_eq_right hy, max_eq_left hy, min_eq_right hx, max_eq_left hx]

/-- The oriented box of a nonempty geometry, written through `boxRing`. -/
lemma orientedBoxCoords_eq (p : Pt) (l : List Pt) (angle : ℝ) :
    orientedBoxCoords (p :: l) angle =
      (boxRing (extentOf ((p :: l).map (fun q =>
          rotatePoint q (getCenterE (extentOf (p :: l))) (-angle))))).map
        (fun q => rotatePoint q (getCenterE (extentOf (p :: l))) angle) := by
  simp only [orientedBoxCoords, List.map_cons]
  rw [rearrangeCoords_fromExtent _ (extentOf_minX_le_maxX _ _)
    (extentOf_minY_le_maxY _ _)]

/-- Map extensionality for lists (pointwise equal functions give equal maps). -/
lemma listMapExt {α β : Type _} (f g : α → β) (l : List α)
    (h : ∀ x ∈ l, f x = g x) : l.map f = l.map g := by
  induction l with
  | nil => rfl
  | cons a l ih =>
      simp only [List.map_cons]
      rw [h a (by simp), ih (fun x hx => h x (by simp [hx]))]

/-- A ring position commutes with rotating the whole box ring. -/
lemma calcHandle_map_rot (e : Extent) (C : Pt) (θ : ℝ) (idx : Nat) (h : idx < 8) :
    calcScaleHandleCoord ((boxRing e).map (fun q => rotatePoint q C θ)) idx =
      rotatePoint (calcScaleHandleCoord (boxRing e) idx) C θ := by
  interval_cases idx <;>
    simp [boxRing, calcScaleHandleCoord, center2_eq_midpoint, rotatePoint,
      Prod.ext_iff] <;>
    (try constructor) <;> ring

/-- A ring position commutes with translating the extent. -/
lemma calcHandle_boxRing_translate (e : Extent) (dx dy : ℝ) (idx : Nat) (h : idx < 8) :
    calcScaleHandleCoord
        (boxRing ⟨e.minX + dx, e.minY + dy, e.maxX + dx, e.maxY + dy⟩) idx =
      translatePoint dx dy (calcScaleHandleCoord (boxRing e) idx) := by
  interval_cases idx <;>
    (simp [boxRing, calcScaleHandleCoord, center2_eq_midpoint, translatePoint,
       Prod.ext_iff] <;> ring)

/-- Scaling an extent about one of its own ring positions keeps that ring
position fixed, whatever the scale factors. -/
lemma calcHandle_boxRing_scale (e : Extent) (sx sy : ℝ) (idx : Nat) (h : idx < 8) :
    calcScaleHandleCoord (boxRing
      ⟨(calcScaleHandleCoord (boxRing e) idx).1 +
          sx * (e.minX - (calcScaleHandleCoord (boxRing e) idx).1),
       (calcScaleHandleCoord (boxRing e) idx).2 +
          sy * (e.minY - (calcScaleHandleCoord (boxRing e) idx).2),
       (calcScaleHandleCoord (boxRing e) idx).1 +
          sx * (e.maxX - (calcScaleHandleCoord (boxRing e) idx).1),
       (calcScaleHandleCoord (boxRing e) idx).2 +
          sy * (e.maxY - (calcScaleHandleCoord (boxRing e) idx).2)⟩) idx =
      calcScaleHandleCoord (boxRing e) idx := by
  interval_cases idx <;>
    simp [boxRing, calcScaleHandleCoord, center2_eq_midpoint, Prod.ext_iff] <;>
    (try constructor) <;> ring

/-- The extent of a translated nonempty geometry. -/
lemma extentOf_map_translate (dx dy : ℝ) (p : Pt) (l : List Pt) :
    extentOf ((p :: l).map (translatePoint dx dy)) =
      ⟨(extentOf (p :: l)).minX + dx, (extentOf (p :: l)).minY + dy,
       (extentOf (p :: l)).maxX + dx, (extentOf (p :: l)).maxY + dy⟩ := by
  have hmx : Monotone (fun x : ℝ => x + dx) := fun a b hab => by simpa using hab
  have hmy : Monotone (fun y : ℝ => y + dy) := fun a b hab => by simpa using hab
  have h := extentOf_map_mono (fun x => x + dx) (fun y => y + dy) hmx hmy p l
  simpa [translatePoint] using h

/-- The extent of a nonempty geometry scaled with nonnegative factors. -/
lemma extentOf_map_scale (sx sy : ℝ) (hsx : 0 ≤ sx) (hsy : 0 ≤ sy)
    (A : Pt) (p : Pt) (l : List Pt) :
    extentOf ((p :: l).map (scalePoint sx sy A)) =
      ⟨A.1 + sx * ((extentOf (p :: l)).minX - A.1),
       A.2 + sy * ((extentOf (p :: l)).minY - A.2),
       A.1 + sx * ((extentOf (p :: l)).maxX - A.1),
       A.2 + sy * ((extentOf (p :: l)).maxY - A.2)⟩ := by
  have hmx : Monotone (fun x : ℝ => A.1 + sx * (x - A.1)) := by
    intro a b hab
    have := mul_le_mul_of_nonneg_left (sub_le_sub_right hab A.1) hsx
    simpa using this
  have hmy : Monotone (fun y : ℝ => A.2 + sy * (y - A.2)) := by
    intro a b hab
    have := mul_le_mul_of_nonneg_left (sub_le_sub_right hab A.2) hsy
    simpa using this
  have h := extentOf_map_mono (fun x => A.1 + sx * (x - A.1))
    (fun y => A.2 + sy * (y - A.2)) hmx hmy p l
  simpa [scalePoint] using h

/-- The oriented box through `boxRing`, for any nonempty geometry. -/
lemma orientedBoxCoords_ne_nil (g : List Pt) (hg : g ≠ []) (angle : ℝ) :
    orientedBoxCoords g angle =
      (boxRing (extentOf (g.map (fun q =>
          rotatePoint q (getCenterE (extentOf g)) (-angle))))).map
        (fun q => rotatePoint q (getCenterE (extentOf g)) angle) := by
  cases g with
  | nil => exact absurd rfl hg
  | cons p l =>
      have h := orientedBoxCoords_eq p l angle
      simpa using h

/-- Translation version of the extent lemma for any nonempty geometry. -/
lemma extentOf_translate_ne_nil (dx dy : ℝ) (g : List Pt) (hg : g ≠ []) :
    extentOf (g.map (translatePoint dx dy)) =
      ⟨(extentOf g).minX + dx, (extentOf g).minY + dy,
       (extentOf g).maxX + dx, (extentOf g).maxY + dy⟩ := by
  cases g with
  | nil => exact absurd rfl hg
  | cons p l => exact extentOf_map_translate dx dy p l

/-- Scale version of the extent lemma for any nonempty geometry. -/
lemma extentOf_scale_ne_nil (sx sy : ℝ) (hsx : 0 ≤ sx) (hsy : 0 ≤ sy)
    (A : Pt) (g : List Pt) (hg : g ≠ []) :
    extentOf (g.map (scalePoint sx sy A)) =
      ⟨A.1 + sx * ((extentOf g).minX - A.1), A.2 + sy * ((extentOf g).minY - A.2),
       A.1 + sx * ((extentOf g).maxX - A.1), A.2 + sy * ((extentOf g).maxY - A.2)⟩ := by
  cases g with
  | nil => exact absurd rfl hg
  | cons p l => exact extentOf_map_scale sx sy hsx hsy A p l

/-- Core anchor fixed-point: de-rotating a nonempty geometry about one of its
own oriented-box ring positions, scaling there with nonnegative factors and
rotating back keeps that ring position of the freshly recomputed oriented box
fixed, for every stored angle. -/
lemma anchor_fixed_core (g : List Pt) (hg : g ≠ []) (a sx sy : ℝ)
    (hsx : 0 ≤ sx) (hsy : 0 ≤ sy) (idx : Nat) (hidx : idx < 8) :
    calcScaleHandleCoord
      (orientedBoxCoords
        (((g.map (fun q => rotatePoint q
              (calcScaleHandleCoord (orientedBoxCoords g a) idx) (-a))).map
            (scalePoint sx sy
              (calcScaleHandleCoord (orientedBoxCoords g a) idx))).map
          (fun q => rotatePoint q
            (calcScaleHandleCoord (orientedBoxCoords g a) idx) a)) a) idx =
      calcScaleHandleCoord (orientedBoxCoords g a) idx := by
  have hbox := orientedBoxCoords_ne_nil g hg a
  set c := getCenterE (extentOf g) with hc
  set H := g.map (fun q => rotatePoint q c (-a)) with hH
  have hHne : H ≠ [] := by
    rw [hH]
    simpa using hg
  set E := extentOf H with hE
  set Q := calcScaleHandleCoord (boxRing E) idx with hQ
  have hP : calcScaleHandleCoord (orientedBoxCoords g a) idx =
      rotatePoint Q c a := by
    rw [hbox, hQ]
    exact calcHandle_map_rot E c a idx hidx
  rw [hP]
  set P := rotatePoint Q c a with hPdef
  -- the original geometry is the rotated-back de-rotated geometry
  have hGH : H.map (fun q => rotatePoint q c a) = g := by
    rw [hH, List.map_map]
    have hid : ∀ x ∈ g,
        ((fun q => rotatePoint q c a) ∘ fun q => rotatePoint q c (-a)) x = id x :=
      fun x _ => by simpa using rotatePoint_cancel_left a c x
    rw [listMapExt _ _ _ hid, List.map_id]
  -- step 1: de-rotating about the anchor is a translation of the normal form
  set w1 := rotatePoint (rotatePoint (0, 0) c a) P (-a) with hw1
  have hstep1 : g.map (fun q => rotatePoint q P (-a)) =
      H.map (translatePoint w1.1 w1.2) := by
    rw [← hGH, List.map_map]
    apply listMapExt
    intro x _
    have h1 := rotatePoint_comp_neg a c P x
    simpa [translatePoint] using h1
  -- the translation takes the ring anchor of the normal extent to the anchor
  have hQw1 : translatePoint w1.1 w1.2 Q = P := by
    have h1 := rotatePoint_comp_neg a c P Q
    rw [← hPdef, rotatePoint_anchor] at h1
    show (Q.1 + w1.1, Q.2 + w1.2) = P
    exact h1.symm
  rw [hstep1]
  -- step 2: extent after the translation
  have hE1 := extentOf_translate_ne_nil w1.1 w1.2 H hHne
  have hanch1 : calcScaleHandleCoord
      (boxRing (extentOf (H.map (translatePoint w1.1 w1.2)))) idx = P := by
    rw [hE1, ← hE, calcHandle_boxRing_translate E w1.1 w1.2 idx hidx, ← hQ, hQw1]
  -- step 3: extent after the anchored scale
  have hK1ne : H.map (translatePoint w1.1 w1.2) ≠ [] := by
    simpa using hHne
  have hE2 := extentOf_scale_ne_nil sx sy hsx hsy P
    (H.map (translatePoint w1.1 w1.2)) hK1ne
  have hanch2 : calcScaleHandleCoord
      (boxRing (extentOf ((H.map (translatePoint w1.1 w1.2)).map
        (scalePoint sx sy P)))) idx = P := by
    rw [hE2]
    have h2 := calcHandle_boxRing_scale
      (extentOf (H.map (translatePoint w1.1 w1.2))) sx sy idx hidx
    rw [hanch1] at h2
    exact h2
  -- step 4: recompute the oriented box of the transformed geometry
  have hK2ne : (H.map (translatePoint w1.1 w1.2)).map (scalePoint sx sy P) ≠ [] := by
    simpa using hHne
  have hGne : ((H.map (translatePoint w1.1 w1.2)).map (scalePoint sx sy P)).map
      (fun q => rotatePoint q P a) ≠ [] := by
    simpa using hHne
  rw [orientedBoxCoords_ne_nil _ hGne a]
  set c2 := getCenterE (extentOf (((H.map (translatePoint w1.1 w1.2)).map
    (scalePoint sx sy P)).map (fun q => rotatePoint q P a))) with hc2
  set w2 := rotatePoint (rotatePoint (0, 0) P a) c2 (-a) with hw2
  have hstep4 : (((H.map (translatePoint w1.1 w1.2)).map (scalePoint sx sy P)).map
        (fun q => rotatePoint q P a)).map (fun q => rotatePoint q c2 (-a)) =
      ((H.map (translatePoint w1.1 w1.2)).map (scalePoint sx sy P)).map
        (translatePoint w2.1 w2.2) := by
    rw [List.map_map]
    apply listMapExt
    intro x _
    have h1 := rotatePoint_comp_neg a P c2 x
    simpa [translatePoint] using h1
  rw [hstep4]
  have hE3 := extentOf_translate_ne_nil w2.1 w2.2
    ((H.map (translatePoint w1.1 w1.2)).map (scalePoint sx sy P)) hK2ne
  rw [hE3, calcHandle_map_rot _ c2 a idx hidx,
    calcHandle_boxRing_translate _ w2.1 w2.2 idx hidx, hanch2]
  -- the anchor comes back to itself after the final rotation
  have h1 := rotatePoint_comp_neg a P c2 P
  rw [rotatePoint_anchor] at h1
  have h2 : translatePoint w2.1 w2.2 P = rotatePoint P c2 (-a) := by
    show (P.1 + w2.1, P.2 + w2.2) = rotatePoint P c2 (-a)
    exact h1.symm
  rw [h2, rotatePoint_cancel_left]

/-- Rotation by `-π/2` in closed form. -/
lemma rotatePoint_neg_half_pi (p c : Pt) :
    rotatePoint p c (-(Real.pi / 2)) = (c.1 + (p.2 - c.2), c.2 - (p.1 - c.1)) := by
  simp [rotatePoint, Real.cos_pi_div_two, Real.sin_pi_div_two]
  constructor <;> ring

/-- Rotation by `π` in closed form (the point reflection in the anchor). -/
lemma rotatePoint_pi (p c : Pt) :
    rotatePoint p c Real.pi = (2 * c.1 - p.1, 2 * c.2 - p.2) := by
  simp [rotatePoint, Real.cos_pi, Real.sin_pi]
  constructor <;> ring

/-- The atan2 of a point straight above the pivot. -/
lemma atan2_five_zero : atan2 5 0 = Real.pi / 2 := by
  norm_num [atan2]

/-- The atan2 of a point straight to the right of the pivot. -/
lemma atan2_zero_five : atan2 0 5 = 0 := by
  norm_num [atan2, Real.arctan_zero]

/-- The JavaScript remainder keeps `-π/2` negative (no wrap into `[0, 2π)`). -/
lemma jsMod_neg_half_pi : jsMod (-(Real.pi / 2)) (2 * Real.pi) = -(Real.pi / 2) := by
  have hpi := Real.pi_pos
  have h1 : (-(Real.pi / 2)) / (2 * Real.pi) = -(1 / 4 : ℝ) := by
    field_simp
    ring
  rw [jsMod, h1]
  norm_num

/-- The JavaScript remainder of `0 + π` by `2π`. -/
lemma jsMod_pi : jsMod (0 + Real.pi) (2 * Real.pi) = Real.pi := by
  have hpi := Real.pi_pos
  have h1 : (0 + Real.pi) / (2 * Real.pi) = (1 / 2 : ℝ) := by
    field_simp
    ring
  rw [jsMod, h1]
  norm_num

/-- The JavaScript remainder of `π + π` by `2π`. -/
lemma jsMod_two_pi : jsMod (Real.pi + Real.pi) (2 * Real.pi) = 0 := by
  have hpi := Real.pi_pos
  have h1 : (Real.pi + Real.pi) / (2 * Real.pi) = (1 : ℝ) := by
    field_simp
    ring
  rw [jsMod, h1]
  norm_num
  ring

/-- The extent of the fixture square. -/
lemma extentOf_sqGeom : extentOf sqGeom = ⟨0, 0, 10, 10⟩ := by
  norm_num [sqGeom, extentOf, listMin, listMax]

/-- A drag frame never changes the mode. -/
lemma handleDrag_mode (st : TransformState) (c : Pt) :
    (handleDragEvent st c).mode = st.mode := by
  unfold handleDragEvent
  cases st.mode <;> simp

/-- A drag frame always raises the transformed flag. -/
lemma handleDrag_isTransformed (st : TransformState) (c : Pt) :
    (handleDragEvent st c).isTransformed = true := by
  unfold handleDragEvent
  cases st.mode <;> simp

/-- A drag frame leaves the overlay source empty. -/
lemma handleDrag_handleSource (st : TransformState) (c : Pt) :
    (handleDragEvent st c).handleSource = [] := by
  unfold handleDragEvent
  cases st.mode <;> simp

/-- A drag frame appends exactly the during notifications of its mode. -/
lemma handleDrag_events (st : TransformState) (c : Pt) :
    (handleDragEvent st c).events = st.events ++ duringEvents st.mode := by
  unfold handleDragEvent
  cases h : st.mode <;> simp [h]

/-- Folding drag frames never changes the mode. -/
lemma foldlDrag_mode (drags : List Pt) (st : TransformState) :
    (drags.foldl handleDragEvent st).mode = st.mode := by
  induction drags generalizing st with
  | nil => rfl
  | cons d ds ih => rw [List.foldl_cons, ih, handleDrag_mode]

/-- Folding at least one drag frame raises the transformed flag. -/
lemma foldlDrag_isTransformed (drags : List Pt) (st : TransformState)
    (h : drags ≠ []) : (drags.foldl handleDragEvent st).isTransformed = true := by
  induction drags generalizing st with
  | nil => exact absurd rfl h
  | cons d ds ih =>
      rw [List.foldl_cons]
      cases ds with
      | nil => exact handleDrag_isTransformed st d
      | cons e es => exact ih _ (by simp)

/-- Folding drag frames appends one block of during notifications per frame. -/
lemma foldlDrag_events (drags : List Pt) (st : TransformState) :
    (drags.foldl handleDragEvent st).events =
      st.events ++ (List.replicate drags.length (duringEvents st.mode)).flatten := by
  induction drags generalizing st with
  | nil => simp
  | cons d ds ih =>
      rw [List.foldl_cons, ih, handleDrag_events, handleDrag_mode]
      simp [List.replicate_succ]

/-- The pointer-up notifications: `mouseup`, then the end notifications only
when a drag frame ran. -/
lemma handleUp_events (st : TransformState) :
    (handleUpEvent st).events =
      st.events ++ [EvType.mouseup] ++
        (if st.isTransformed then endEvents st.mode else []) := by
  unfold handleUpEvent
  split_ifs <;> simp_all

/-- Pointer-up never touches the selection unless the mode is scale with the
inverted-head flag up. -/
lemma handleUp_selections_of_not_flip (st : TransformState)
    (h : ¬(st.mode = Mode.scale ∧ st.headInverted)) :
    (handleUpEvent st).selections = st.selections := by
  unfold handleUpEvent
  split_ifs <;> simp_all <;> split <;> rfl

/-- Pointer-up resets the mode to idle and clears the transformed flag. -/
lemma handleUp_mode_reset (st : TransformState) :
    (handleUpEvent st).mode = Mode.idle ∧
      (handleUpEvent st).isTransformed = false := by
  unfold handleUpEvent
  split_ifs <;> simp

/-- Pointer-up repopulates the overlay from the final selection. -/
lemma handleUp_handleSource (st : TransformState) :
    (handleUpEvent st).handleSource = drawHandles (handleUpEvent st).selections := by
  unfold handleUpEvent
  split_ifs <;> simp

/-- No during notification is an end notification. -/
lemma duringEvents_no_end (m : Mode) : ∀ e ∈ duringEvents m, isEndEv e = false := by
  cases m <;> simp [duringEvents, isEndEv]

/-- No start notification is an end notification. -/
lemma startEvents_no_end (m : Mode) : ∀ e ∈ startEvents m, isEndEv e = false := by
  cases m <;> simp [startEvents, isEndEv]

/-- An empty selection draws an empty overlay. -/
lemma drawHandles_nil : drawHandles [] = [] := rfl

/-- Pointer-down that hit nothing: the selection is cleared, only `mousedown`
is dispatched, and no down-up sequence starts. -/
lemma handleDown_nothing (st : TransformState) (coord : Pt) (add : Bool) :
    handleDownEvent st coord HitInput.nothing add =
      ({ st with
          selections := []
          prevSelections := []
          handleSource := if st.selections = [] then st.handleSource else []
          events := st.events ++ [EvType.mousedown] }, false) := by
  unfold handleDownEvent selectFeature
  by_cases h : st.selections = [] <;> simp [h, drawHandles_nil]

/-- Pointer-down on a body: the add/toggle policy runs, the snapshot is taken,
the mode becomes translate and the reference point is the press point. -/
lemma handleDown_body (st : TransformState) (coord : Pt) (f : Feat) (add : Bool) :
    handleDownEvent st coord (HitInput.bodyHit f) add =
      ({ st with
          selections := (selectFeature st.selections (HitInput.bodyHit f) add).1
          prevSelections := (selectFeature st.selections (HitInput.bodyHit f) add).1
          handleSource :=
            if (selectFeature st.selections (HitInput.bodyHit f) add).2.2
            then drawHandles (selectFeature st.selections (HitInput.bodyHit f) add).1
            else st.handleSource
          mode := Mode.translate
          startCoord := coord
          prevCoord := coord
          events := st.events ++
            [EvType.mousedown, EvType.translatestart, EvType.transformstart] }, true) := by
  have h2 : (selectFeature st.selections (HitInput.bodyHit f) add).2.1 =
      some (HitResult.isBody f) := by
    simp only [selectFeature]
    split_ifs <;> rfl
  simp only [handleDownEvent, h2]
  simp [startEvents]

/-- Pointer-down on a rotate handle: selection untouched, pivot and initial
angle recorded. -/
lemma handleDown_rotate (st : TransformState) (coord : Pt) (idx : Nat)
    (body : Feat) (add : Bool) :
    handleDownEvent st coord (HitInput.handleHit Mode.rotate idx body) add =
      ({ st with
          prevSelections := st.selections
          mode := Mode.rotate
          startCoord := coord
          rotationSelection :=
            ⟨atan2 (coord.2 - (getCenterE (extentOf body.geom)).2)
               (coord.1 - (getCenterE (extentOf body.geom)).1),
             getCenterE (extentOf body.geom)⟩
          events := st.events ++
            [EvType.mousedown, EvType.rotatestart, EvType.transformstart] }, true) := by
  unfold handleDownEvent selectFeature
  simp [startEvents]

/-- Pointer-down on a scale handle: selection untouched, the grabbed shape's
oriented box, opposite anchor, local start coordinate and box size recorded. -/
lemma handleDown_scale (st : TransformState) (coord : Pt) (idx : Nat)
    (body : Feat) (add : Bool) :
    handleDownEvent st coord (HitInput.handleHit Mode.scale idx body) add =
      ({ st with
          prevSelections := st.selections
          mode := Mode.scale
          startCoord := coord
          scalingSelection :=
            ⟨body.angleAttr.getD 0,
             calcDistance ((orientedBoxCoords body.geom (body.angleAttr.getD 0)).getD 1 (0, 0))
               ((orientedBoxCoords body.geom (body.angleAttr.getD 0)).getD 2 (0, 0)),
             calcDistance ((orientedBoxCoords body.geom (body.angleAttr.getD 0)).getD 0 (0, 0))
               ((orientedBoxCoords body.geom (body.angleAttr.getD 0)).getD 1 (0, 0)),
             idx, (idx + 4) % 8,
             calcScaleHandleCoord (orientedBoxCoords body.geom (body.angleAttr.getD 0))
               ((idx + 4) % 8),
             rotatePoint
               (calcScaleHandleCoord (orientedBoxCoords body.geom (body.angleAttr.getD 0)) idx)
               (calcScaleHandleCoord (orientedBoxCoords body.geom (body.angleAttr.getD 0))
                 ((idx + 4) % 8))
               (-(body.angleAttr.getD 0))⟩
          events := st.events ++
            [EvType.mousedown, EvType.scalestart, EvType.transformstart] }, true) := by
  unfold handleDownEvent selectFeature
  simp [startEvents]

/-- A drag frame in translate mode: every selected geometry is translated by
the delta from the previous frame and the reference point advances. -/
lemma handleDrag_translate (st : TransformState) (c : Pt)
    (h : st.mode = Mode.translate) :
    handleDragEvent st c =
      { st with
          handleSource := []
          isTransformed := true
          prevCoord := c
          selections := st.selections.map (fun (s : Feat) =>
            { s with geom := s.geom.map (translatePoint (c.1 - st.prevCoord.1) (c.2 - st.prevCoord.2)) })
          events := st.events ++ duringEvents Mode.translate } := by
  unfold handleDragEvent
  simp [h]

/-- A drag frame in rotate mode: the live geometries are the snapshot
geometries rotated by the frame's delta angle about their own extent centers,
and the snapshot (not the live) `angle` attributes are overwritten through the
JavaScript remainder. -/
lemma handleDrag_rotate (st : TransformState) (c : Pt)
    (h : st.mode = Mode.rotate) :
    handleDragEvent st c =
      { st with
          handleSource := []
          isTransformed := true
          selections := List.zipWith (fun (prev live : Feat) =>
            { live with geom := prev.geom.map (fun p =>
                rotatePoint p (getCenterE (extentOf prev.geom))
                  (atan2 (c.2 - st.rotationSelection.center.2)
                     (c.1 - st.rotationSelection.center.1) -
                   st.rotationSelection.angle)) })
            st.prevSelections st.selections
          prevSelections := st.prevSelections.map (fun (prev : Feat) =>
            match prev.angleAttr with
            | some a => { prev with angleAttr := some (jsMod
                (a + (atan2 (c.2 - st.rotationSelection.center.2)
                        (c.1 - st.rotationSelection.center.1) -
                      st.rotationSelection.angle)) (2 * Real.pi)) }
            | none => prev)
          events := st.events ++ duringEvents Mode.rotate } := by
  unfold handleDragEvent
  simp [h]

/-- A drag frame in scale mode: scale factors from the recorded drag state,
the inverted-head flag tracks a negative vertical factor, and every snapshot
shape is scaled about its own opposite anchor. -/
lemma handleDrag_scale (st : TransformState) (c : Pt)
    (h : st.mode = Mode.scale) :
    handleDragEvent st c =
      { st with
          handleSource := []
          isTransformed := true
          headInverted := if (scaleFactorsAt st.scalingSelection c).2 < 0 then true else false
          selections := List.zipWith (fun (prev live : Feat) =>
            { live with geom := applyScaleToShape st.scalingSelection.oppositeIdx (scaleFactorsAt st.scalingSelection c).1 (scaleFactorsAt st.scalingSelection c).2 prev })
            st.prevSelections st.selections
          events := st.events ++ duringEvents Mode.scale } := by
  unfold handleDragEvent
  simp [h]

/-- Pointer-down on a translate handle: selection untouched, the press point
becomes the reference point. -/
lemma handleDown_translate_handle (st : TransformState) (coord : Pt) (idx : Nat)
    (body : Feat) (add : Bool) :
    handleDownEvent st coord (HitInput.handleHit Mode.translate idx body) add =
      ({ st with
          prevSelections := st.selections
          mode := Mode.translate
          startCoord := coord
          prevCoord := coord
          events := st.events ++
            [EvType.mousedown, EvType.translatestart, EvType.transformstart] }, true) := by
  unfold handleDownEvent selectFeature
  simp [startEvents]

/-- Pointer-down on a mode-less handle (not producible by `drawHandles`): only
the generic start notification accompanies the mouse-down. -/
lemma handleDown_idle_handle (st : TransformState) (coord : Pt) (idx : Nat)
    (body : Feat) (add : Bool) :
    handleDownEvent st coord (HitInput.handleHit Mode.idle idx body) add =
      ({ st with
          prevSelections := st.selections
          mode := Mode.idle
          startCoord := coord
          events := st.events ++ [EvType.mousedown, EvType.transformstart] }, true) := by
  unfold handleDownEvent selectFeature
  simp [startEvents]

/-- A successful pointer-down dispatches `mousedown` and then the start
notifications of the mode it picked. -/
lemma handleDown_ok_events (st : TransformState) (coord : Pt) (hit : HitInput)
    (add : Bool) (hok : (handleDownEvent st coord hit add).2 = true) :
    (handleDownEvent st coord hit add).1.events =
      st.events ++ [EvType.mousedown] ++
        startEvents (handleDownEvent st coord hit add).1.mode := by
  cases hit with
  | nothing => simp [handleDown_nothing] at hok
  | bodyHit f => rw [handleDown_body]; simp [startEvents]
  | handleHit m idx body =>
      cases m with
      | idle => rw [handleDown_idle_handle]; simp [startEvents]
      | translate => rw [handleDown_translate_handle]; simp [startEvents]
      | rotate => rw [handleDown_rotate]; simp [startEvents]
      | scale => rw [handleDown_scale]; simp [startEvents]

/-- Pointer-down never touches the transformed flag. -/
lemma handleDown_isTransformed (st : TransformState) (coord : Pt) (hit : HitInput)
    (add : Bool) :
    (handleDownEvent st coord hit add).1.isTransformed = st.isTransformed := by
  cases hit with
  | nothing => rw [handleDown_nothing]
  | bodyHit f => rw [handleDown_body]
  | handleHit m idx body =>
      cases m with
      | idle => rw [handleDown_idle_handle]
      | translate => rw [handleDown_translate_handle]
      | rotate => rw [handleDown_rotate]
      | scale => rw [handleDown_scale]

/-- A successful pointer-down starts the down-drag-up sequence. -/
lemma runGesture_ok (st : TransformState) (coord : Pt) (hit : HitInput)
    (add : Bool) (drags : List Pt)
    (hok : (handleDownEvent st coord hit add).2 = true) :
    runGesture st coord hit add drags =
      handleUpEvent (drags.foldl handleDragEvent (handleDownEvent st coord hit add).1) := by
  simp only [runGesture, hok]
  simp

/-- Folding translate drag frames over any frame decomposition moves every
selected geometry by exactly the difference between the last pointer position
and the initial reference point, and tracks the reference point. -/
lemma foldlDrag_translate (drags : List Pt) (st : TransformState)
    (h : st.mode = Mode.translate) :
    (drags.foldl handleDragEvent st).selections =
      st.selections.map (fun (s : Feat) =>
        { s with geom := s.geom.map (translatePoint ((lastOr drags st.prevCoord).1 - st.prevCoord.1) ((lastOr drags st.prevCoord).2 - st.prevCoord.2)) }) ∧
    (drags.foldl handleDragEvent st).prevCoord = lastOr drags st.prevCoord := by
  induction drags generalizing st with
  | nil =>
      refine ⟨?_, rfl⟩
      have hid : ∀ s ∈ st.selections, (fun (s : Feat) =>
          { s with geom := s.geom.map (translatePoint ((lastOr [] st.prevCoord).1 - st.prevCoord.1) ((lastOr [] st.prevCoord).2 - st.prevCoord.2)) }) s = id s := by
        intro s _
        have hg : ∀ q ∈ s.geom,
            translatePoint ((lastOr [] st.prevCoord).1 - st.prevCoord.1)
              ((lastOr [] st.prevCoord).2 - st.prevCoord.2) q = id q := by
          intro q _
          simp [lastOr, translatePoint]
        show ({ s with geom := s.geom.map _ } : Feat) = s
        rw [listMapExt _ _ _ hg, List.map_id]
      rw [listMapExt _ _ _ hid, List.map_id]
      rfl
  | cons d ds ih =>
      rw [List.foldl_cons]
      have hmode : (handleDragEvent st d).mode = Mode.translate := by
        rw [handleDrag_mode, h]
      obtain ⟨ih1, ih2⟩ := ih (handleDragEvent st d) hmode
      have hsel : (handleDragEvent st d).selections =
          st.selections.map (fun (s : Feat) =>
            { s with geom := s.geom.map (translatePoint (d.1 - st.prevCoord.1) (d.2 - st.prevCoord.2)) }) := by
        rw [handleDrag_translate st d h]
      have hprev : (handleDragEvent st d).prevCoord = d := by
        rw [handleDrag_translate st d h]
      rw [ih1, ih2, hsel, hprev]
      refine ⟨?_, rfl⟩
      rw [List.map_map]
      apply listMapExt
      intro s _
      simp only [Function.comp_apply, Feat.mk.injEq]
      refine ⟨trivial, trivial, ?_, trivial⟩
      have hlast : lastOr (d :: ds) st.prevCoord = lastOr ds d := rfl
      rw [hlast, List.map_map]
      apply listMapExt
      intro q _
      simp only [Function.comp_apply, translatePoint, Prod.mk.injEq]
      constructor <;> ring

/-- With a zero stored angle the oriented box is just the canonical ring of
the raw extent. -/
lemma orientedBoxCoords_angle_zero (g : List Pt) (hg : g ≠ []) :
    orientedBoxCoords g 0 = boxRing (extentOf g) := by
  rw [orientedBoxCoords_ne_nil g hg 0]
  have h1 : g.map (fun q => rotatePoint q (getCenterE (extentOf g)) (-0)) = g := by
    have hp : ∀ q ∈ g, rotatePoint q (getCenterE (extentOf g)) (-0) = id q := by
      intro q _
      simp [neg_zero, rotatePoint_zero]
    rw [listMapExt _ _ _ hp, List.map_id]
  rw [h1]
  have h2 : ∀ q ∈ boxRing (extentOf g), rotatePoint q (getCenterE (extentOf g)) 0 = id q := by
    intro q _
    simp [rotatePoint_zero]
  rw [listMapExt _ _ _ h2, List.map_id]

/-- The oriented box of the fixture square at angle zero. -/
lemma orientedBoxCoords_sqGeom : orientedBoxCoords sqGeom 0 = boxRing ⟨0, 0, 10, 10⟩ := by
  rw [orientedBoxCoords_angle_zero sqGeom (by simp [sqGeom]), extentOf_sqGeom]

/-- Pointer-up never touches the inverted-head flag (it survives gestures). -/
lemma handleUp_headInverted (st : TransformState) :
    (handleUpEvent st).headInverted = st.headInverted := by
  unfold handleUpEvent
  split_ifs <;> simp_all <;> split <;> rfl

/-- Pointer-up in head-inverted scale mode: shapes carrying an `angle`
attribute get the half-turn and the attribute advance; shapes without one are
left alone. -/
lemma handleUp_selections_flip (st : TransformState)
    (h1 : st.mode = Mode.scale) (h2 : st.headInverted = true) :
    (handleUpEvent st).selections = st.selections.map (fun (sel : Feat) =>
      match sel.angleAttr with
      | some a =>
          { sel with
            geom := sel.geom.map (fun p =>
              rotatePoint p (getCenterE (extentOf sel.geom)) Real.pi)
            angleAttr := some (jsMod (a + Real.pi) (2 * Real.pi)) }
      | none => sel) := by
  unfold handleUpEvent
  simp only [h1, h2]
  split_ifs <;> simp_all

/-- C9. In translate mode, folding any sequence of drag frames and releasing
displaces every selected shape by exactly the difference between the final
pointer position and the initial reference point, independent of the frame
decomposition; no other field of a selected shape changes. -/
theorem translate_composition (st : TransformState) (hm : st.mode = Mode.translate)
    (drags : List Pt) :
    (handleUpEvent (drags.foldl handleDragEvent st)).selections =
      st.selections.map (fun (s : Feat) =>
        { s with geom := s.geom.map (translatePoint ((lastOr drags st.prevCoord).1 - st.prevCoord.1) ((lastOr drags st.prevCoord).2 - st.prevCoord.2)) }) := by
  have hmode := foldlDrag_mode drags st
  have hns : ¬((drags.foldl handleDragEvent st).mode = Mode.scale ∧
      (drags.foldl handleDragEvent st).headInverted) := by
    rw [hmode, hm]
    simp
  rw [handleUp_selections_of_not_flip _ hns, (foldlDrag_translate drags st hm).1]

/-- C9 witness. The spec scenario: press on the square's body at `(5, 5)`,
two frames with deltas `(1, -1)` and `(2, -1)`, release: the square is
translated by `(3, -2)` in total. -/
theorem translate_composition_witness :
    (handleDownEvent stA ((5 : ℝ), (5 : ℝ)) (HitInput.bodyHit sqA) false).1.mode =
      Mode.translate ∧
    (handleUpEvent ([((6 : ℝ), (4 : ℝ)), ((8 : ℝ), (3 : ℝ))].foldl handleDragEvent
        (handleDownEvent stA (5, 5) (HitInput.bodyHit sqA) false).1)).selections =
      [{ sqA with geom := [((3 : ℝ), (-2 : ℝ)), (13, -2), (13, 8), (3, 8)] }] := by
  have hsf : selectFeature stA.selections (HitInput.bodyHit sqA) false =
      ([sqA], some (HitResult.isBody sqA), false) := by
    simp [selectFeature, stA, initState, sqA, List.findIdx_cons]
  have hdown := handleDown_body stA ((5 : ℝ), (5 : ℝ)) sqA false
  rw [hsf] at hdown
  have hmode : (handleDownEvent stA ((5 : ℝ), (5 : ℝ)) (HitInput.bodyHit sqA) false).1.mode =
      Mode.translate := by
    rw [hdown]
  refine ⟨hmode, ?_⟩
  have h := translate_composition
    (handleDownEvent stA ((5 : ℝ), (5 : ℝ)) (HitInput.bodyHit sqA) false).1 hmode
    [((6 : ℝ), (4 : ℝ)), ((8 : ℝ), (3 : ℝ))]
  rw [h, hdown]
  simp only []
  norm_num [stA, initState, sqA, sqGeom, lastOr, translatePoint]

/-- Width of the fixture box: distance between its bottom corners. -/
lemma calcDistance_horiz : calcDistance ((0 : ℝ), (0 : ℝ)) (10, 0) = 10 := by
  simp only [calcDistance, calcSize]
  norm_num
  rw [show (100 : ℝ) = 10 ^ 2 by norm_num]
  exact Real.sqrt_sq (by norm_num)

/-- Height of the fixture box: distance between its left corners. -/
lemma calcDistance_vert : calcDistance ((0 : ℝ), (10 : ℝ)) (0, 0) = 10 := by
  simp only [calcDistance, calcSize]
  norm_num
  rw [show (100 : ℝ) = 10 ^ 2 by norm_num]
  exact Real.sqrt_sq (by norm_num)

/-- Grabbing the square's ring-7 scale handle at `(5, 10)` records exactly the
fixture drag state. -/
lemma scale_down_eval :
    handleDownEvent stA ((5 : ℝ), (10 : ℝ)) (HitInput.handleHit Mode.scale 7 sqA) false =
      (stG1, true) := by
  rw [handleDown_scale]
  have h1 : sqA.angleAttr.getD 0 = 0 := rfl
  have h2 : sqA.geom = sqGeom := rfl
  rw [h1, h2, orientedBoxCoords_sqGeom]
  simp only [stG1, stA, initState, scaleSel1]
  norm_num [boxRing, calcScaleHandleCoord, center2, rotatePoint_zero, min_def, max_def]
  refine ⟨?_, ?_⟩
  · exact calcDistance_horiz
  · exact calcDistance_vert

/-- The scale factors of the flip drag frame. -/
lemma scale_g1_factors : scaleFactorsAt scaleSel1 ((5 : ℝ), (-10 : ℝ)) = (1, -1) := by
  simp [scaleFactorsAt, scaleSel1, scaleDeltas, neg_zero, rotatePoint_zero]
  norm_num

/-- The flip drag applied to the square's own geometry. -/
lemma scale_g1_apply : applyScaleToShape 3 1 (-1) sqA =
    [((0 : ℝ), (0 : ℝ)), (10, 0), (10, -10), (0, -10)] := by
  simp only [applyScaleToShape]
  have h1 : sqA.angleAttr.getD 0 = 0 := rfl
  have h2 : sqA.geom = sqGeom := rfl
  rw [h1, h2, orientedBoxCoords_sqGeom]
  norm_num [boxRing, calcScaleHandleCoord, center2, rotatePoint_zero, neg_zero,
    scalePoint, sqGeom, min_def, max_def]

/-- The flip drag frame takes the post-down state to the fixture post-drag
state: vertical factor `-1`, inverted-head flag up, square flipped about the
anchor `(5, 0)`. -/
lemma scale_drag_eval : handleDragEvent stG1 ((5 : ℝ), (-10 : ℝ)) = stG2 := by
  rw [handleDrag_scale stG1 _ rfl]
  have hsc : stG1.scalingSelection = scaleSel1 := rfl
  rw [hsc, scale_g1_factors]
  have hops : scaleSel1.oppositeIdx = 3 := rfl
  have hprevs : stG1.prevSelections = [sqA] := rfl
  have hsels : stG1.selections = [sqA] := rfl
  rw [hops, hprevs, hsels]
  simp only [List.zipWith_cons_cons, List.zipWith_nil_right, scale_g1_apply]
  norm_num [stG2, stG1, sqA1]
  rfl

/-- The extent center of the flipped square. -/
lemma sqA1_center : getCenterE (extentOf sqA1.geom) = (5, -5) := by
  norm_num [sqA1, sqA, extentOf, listMin, listMax, getCenterE]

/-- Releasing from the fixture post-drag state applies the half-turn: geometry
reflected through `(5, -5)` and the attribute advanced to `π`. -/
lemma scale_up_eval : (handleUpEvent stG2).selections = [sqA2] := by
  rw [handleUp_selections_flip stG2 rfl rfl]
  simp only [show stG2.selections = [sqA1] from rfl, List.map_cons, List.map_nil]
  simp only [show sqA1.angleAttr = some 0 from rfl]
  rw [sqA1_center]
  simp only [sqA2, sqA1, sqA, jsMod_pi]
  norm_num [rotatePoint_pi, sqGeom]

/-- C5 (amended). Pointer-up resets only the mode and the transformed flag;
the inverted-head record survives the gesture. A scale press-release with no
drag frame leaves the selection untouched exactly when the surviving flag is
down. -/
theorem pointer_up_reset_amended (st : TransformState) (coord : Pt) (idx : Nat)
    (body : Feat) (add : Bool) (hinv : st.headInverted = false) :
    (∀ s : TransformState, (handleUpEvent s).mode = Mode.idle ∧
        (handleUpEvent s).isTransformed = false ∧
        (handleUpEvent s).headInverted = s.headInverted) ∧
    (runGesture st coord (HitInput.handleHit Mode.scale idx body) add []).selections =
      st.selections := by
  constructor
  · intro s
    exact ⟨(handleUp_mode_reset s).1, (handleUp_mode_reset s).2, handleUp_headInverted s⟩
  · have hdown := handleDown_scale st coord idx body add
    have hok : (handleDownEvent st coord (HitInput.handleHit Mode.scale idx body) add).2 =
        true := by
      rw [hdown]
    rw [runGesture_ok _ _ _ _ _ hok, List.foldl_nil]
    have hns : ¬((handleDownEvent st coord (HitInput.handleHit Mode.scale idx body) add).1.mode =
        Mode.scale ∧
        (handleDownEvent st coord (HitInput.handleHit Mode.scale idx body) add).1.headInverted) := by
      rw [hdown]
      simp [hinv]
    rw [handleUp_selections_of_not_flip _ hns, hdown]

/-- C5 witness. A scale press-release with no drag on the fresh square state
(whose inverted-head flag is down) leaves the selection untouched. -/
theorem pointer_up_reset_amended_witness :
    stA.headInverted = false ∧
    (runGesture stA (5, 10) (HitInput.handleHit Mode.scale 0 sqA) false []).selections =
      stA.selections :=
  ⟨rfl, (pointer_up_reset_amended stA (5, 10) 0 sqA false rfl).2⟩

/-- C5 counterexample. The inverted-head flag of a finished flip gesture leaks
into the next gesture: a scale press-release with no drag frame then applies a
spurious half-turn, advancing the square's attribute from `π` back to `0`. -/
theorem stale_headInverted_counterexample :
    (runGesture stA (5, 10) (HitInput.handleHit Mode.scale 7 sqA) false
        [(5, -10)]).selections.map Feat.angleAttr = [some Real.pi] ∧
    (runGesture (runGesture stA (5, 10) (HitInput.handleHit Mode.scale 7 sqA) false [(5, -10)])
        (0, 10) (HitInput.handleHit Mode.scale 0 sqA) false []).selections.map Feat.angleAttr =
      [some 0] ∧
    some Real.pi ≠ some (0 : ℝ) := by
  have hok1 : (handleDownEvent stA ((5 : ℝ), (10 : ℝ))
      (HitInput.handleHit Mode.scale 7 sqA) false).2 = true := by
    rw [scale_down_eval]
  have hg1 : runGesture stA (5, 10) (HitInput.handleHit Mode.scale 7 sqA) false [(5, -10)] =
      handleUpEvent stG2 := by
    rw [runGesture_ok _ _ _ _ _ hok1]
    have h1 : (handleDownEvent stA ((5 : ℝ), (10 : ℝ))
        (HitInput.handleHit Mode.scale 7 sqA) false).1 = stG1 := by
      rw [scale_down_eval]
    rw [h1]
    simp only [List.foldl_cons, List.foldl_nil, scale_drag_eval]
  have hg1sel : (runGesture stA (5, 10) (HitInput.handleHit Mode.scale 7 sqA) false
      [(5, -10)]).selections = [sqA2] := by
    rw [hg1, scale_up_eval]
  have hg1inv : (runGesture stA (5, 10) (HitInput.handleHit Mode.scale 7 sqA) false
      [(5, -10)]).headInverted = true := by
    rw [hg1, handleUp_headInverted]
    rfl
  refine ⟨by rw [hg1sel]; simp [sqA2, sqA], ?_, by simp [Real.pi_ne_zero]⟩
  have hdown2 := handleDown_scale
    (runGesture stA (5, 10) (HitInput.handleHit Mode.scale 7 sqA) false [(5, -10)])
    ((0 : ℝ), (10 : ℝ)) 0 sqA false
  have hok2 : (handleDownEvent
      (runGesture stA (5, 10) (HitInput.handleHit Mode.scale 7 sqA) false [(5, -10)])
      ((0 : ℝ), (10 : ℝ)) (HitInput.handleHit Mode.scale 0 sqA) false).2 = true := by
    rw [hdown2]
  rw [runGesture_ok _ _ _ _ _ hok2, List.foldl_nil]
  rw [handleUp_selections_flip _ (by rw [hdown2]) (by rw [hdown2]; simp [hg1inv])]
  have hsel2 : (handleDownEvent
      (runGesture stA (5, 10) (HitInput.handleHit Mode.scale 7 sqA) false [(5, -10)])
      ((0 : ℝ), (10 : ℝ)) (HitInput.handleHit Mode.scale 0 sqA) false).1.selections = [sqA2] := by
    rw [hdown2]
    exact hg1sel
  rw [hsel2]
  simp only [List.map_cons, List.map_nil, show sqA2.angleAttr = some Real.pi from rfl]
  simp [jsMod_two_pi]

/-- Grabbing the ring-7 scale handle of any body that looks like the fixture
square records the fixture drag state. -/
lemma scale_down_eval_gen (st : TransformState) (coord : Pt) (body : Feat)
    (add : Bool) (hb : body.angleAttr.getD 0 = 0) (hg : body.geom = sqGeom) :
    handleDownEvent st coord (HitInput.handleHit Mode.scale 7 body) add =
      ({ st with
          prevSelections := st.selections
          mode := Mode.scale
          startCoord := coord
          scalingSelection := scaleSel1
          events := st.events ++
            [EvType.mousedown, EvType.scalestart, EvType.transformstart] }, true) := by
  rw [handleDown_scale]
  rw [hb, hg, orientedBoxCoords_sqGeom]
  simp only [scaleSel1]
  norm_num [boxRing, calcScaleHandleCoord, center2, rotatePoint_zero, min_def, max_def]
  refine ⟨?_, ?_⟩
  · exact calcDistance_horiz
  · exact calcDistance_vert

/-- The flip drag applied to any fixture-square body. -/
lemma scale_apply_gen (body : Feat) (hb : body.angleAttr.getD 0 = 0)
    (hg : body.geom = sqGeom) :
    applyScaleToShape 3 1 (-1) body =
      [((0 : ℝ), (0 : ℝ)), (10, 0), (10, -10), (0, -10)] := by
  simp only [applyScaleToShape]
  rw [hb, hg, orientedBoxCoords_sqGeom]
  norm_num [boxRing, calcScaleHandleCoord, center2, rotatePoint_zero, neg_zero,
    scalePoint, sqGeom, min_def, max_def]

/-- C4 (amended). On pointer-up after a head-inverting scale gesture, exactly
the selected shapes carrying an `angle` attribute are rotated by `π` about
their own extent centers with the attribute advanced through the JavaScript
remainder, while attribute-free shapes keep the geometry the drag left them;
and a scale drag frame raises the inverted-head flag exactly when its vertical
scale factor is negative. -/
theorem head_inversion_amended (st : TransformState)
    (hm : st.mode = Mode.scale) (hh : st.headInverted = true)
    (st2 : TransformState) (c : Pt) (hm2 : st2.mode = Mode.scale) :
    ((handleUpEvent st).selections = st.selections.map (fun (sel : Feat) =>
      match sel.angleAttr with
      | some a =>
          { sel with
            geom := sel.geom.map (fun p =>
              rotatePoint p (getCenterE (extentOf sel.geom)) Real.pi)
            angleAttr := some (jsMod (a + Real.pi) (2 * Real.pi)) }
      | none => sel)) ∧
    ((handleDragEvent st2 c).headInverted = true ↔
      (scaleFactorsAt st2.scalingSelection c).2 < 0) := by
  refine ⟨handleUp_selections_flip st hm hh, ?_⟩
  rw [handleDrag_scale st2 c hm2]
  by_cases hc : (scaleFactorsAt st2.scalingSelection c).2 < 0 <;> simp [hc]

/-- C4 witness. At the fixture flip gesture: the drag frame to `(5, -10)`
raises the flag, and the release turns the flipped square by `π` about
`(5, -5)` and sets its attribute to `π`. -/
theorem head_inversion_amended_witness :
    (handleUpEvent stG2).selections = [sqA2] ∧
    (handleDragEvent stG1 (5, -10)).headInverted = true := by
  have h := head_inversion_amended stG2 rfl rfl stG1 (5, -10) rfl
  constructor
  · rw [h.1]
    simp only [show stG2.selections = [sqA1] from rfl, List.map_cons, List.map_nil]
    simp only [show sqA1.angleAttr = some 0 from rfl]
    rw [sqA1_center]
    simp only [sqA2, sqA1, sqA, jsMod_pi]
    norm_num [rotatePoint_pi, sqGeom]
  · rw [h.2]
    rw [show stG1.scalingSelection = scaleSel1 from rfl, scale_g1_factors]
    norm_num

/-- C4 counterexample. A head-inverting scale gesture on a shape without an
`angle` attribute: the release leaves the flipped geometry untouched and sets
no attribute, although the claim promises a half-turn for every selected
shape. -/
theorem head_inversion_no_attr_counterexample :
    (runGesture stN (5, 10) (HitInput.handleHit Mode.scale 7 sqN) false
        [(5, -10)]).selections.map Feat.geom =
      [[((0 : ℝ), (0 : ℝ)), (10, 0), (10, -10), (0, -10)]] ∧
    (runGesture stN (5, 10) (HitInput.handleHit Mode.scale 7 sqN) false
        [(5, -10)]).selections.map Feat.angleAttr = [none] ∧
    ([((0 : ℝ), (0 : ℝ)), (10, 0), (10, -10), (0, -10)] : List Pt) ≠
      ([((0 : ℝ), (0 : ℝ)), (10, 0), (10, -10), (0, -10)] : List Pt).map (fun p =>
        rotatePoint p
          (getCenterE (extentOf ([((0 : ℝ), (0 : ℝ)), (10, 0), (10, -10), (0, -10)] : List Pt)))
          Real.pi) := by
  have hdown := scale_down_eval_gen stN ((5 : ℝ), (10 : ℝ)) sqN false rfl rfl
  have hok : (handleDownEvent stN ((5 : ℝ), (10 : ℝ))
      (HitInput.handleHit Mode.scale 7 sqN) false).2 = true := by
    rw [hdown]
  have hdrag : handleDragEvent (handleDownEvent stN ((5 : ℝ), (10 : ℝ))
      (HitInput.handleHit Mode.scale 7 sqN) false).1 ((5 : ℝ), (-10 : ℝ)) =
      { stN with
          prevSelections := [sqN]
          mode := Mode.scale
          startCoord := (5, 10)
          scalingSelection := scaleSel1
          isTransformed := true
          headInverted := true
          selections := [{ sqN with geom := [((0 : ℝ), (0 : ℝ)), (10, 0), (10, -10), (0, -10)] }]
          events := [EvType.mousedown, EvType.scalestart, EvType.transformstart] ++
            duringEvents Mode.scale } := by
    rw [hdown]
    rw [handleDrag_scale _ _ rfl]
    simp only [show ({ stN with
        prevSelections := stN.selections
        mode := Mode.scale
        startCoord := ((5 : ℝ), (10 : ℝ))
        scalingSelection := scaleSel1
        events := stN.events ++
          [EvType.mousedown, EvType.scalestart, EvType.transformstart] } :
        TransformState).scalingSelection = scaleSel1 from rfl, scale_g1_factors]
    simp only [show stN.selections = [sqN] from rfl, show stN.events = [] from rfl]
    simp only [List.zipWith_cons_cons, List.zipWith_nil_right,
      show scaleSel1.oppositeIdx = 3 from rfl, scale_apply_gen sqN rfl rfl]
    norm_num [stN, initState]
  have hup : (runGesture stN (5, 10) (HitInput.handleHit Mode.scale 7 sqN) false
      [(5, -10)]).selections =
      [{ sqN with geom := [((0 : ℝ), (0 : ℝ)), (10, 0), (10, -10), (0, -10)] }] := by
    rw [runGesture_ok _ _ _ _ _ hok, List.foldl_cons, List.foldl_nil, hdrag,
      handleUp_selections_flip _ rfl rfl]
    simp [sqN]
  refine ⟨by rw [hup]; simp, by rw [hup]; simp [sqN], ?_⟩
  have hc : getCenterE (extentOf ([((0 : ℝ), (0 : ℝ)), (10, 0), (10, -10), (0, -10)] :
      List Pt)) = (5, -5) := by
    norm_num [extentOf, listMin, listMax, getCenterE, min_def, max_def]
  rw [hc]
  intro hcontra
  have h0 := congrArg (fun l => (l.getD 0 (0, 0)).1) hcontra
  norm_num [rotatePoint_pi] at h0

/-- Grabbing the square's rotate handle at `(5, 10)` records pivot `(5, 5)`
and initial angle `π/2`. -/
lemma rot_down_eval :
    handleDownEvent stA ((5 : ℝ), (10 : ℝ)) (HitInput.handleHit Mode.rotate 0 sqA) false =
      (stR1, true) := by
  rw [handleDown_rotate]
  have hc : getCenterE (extentOf sqA.geom) = ((5 : ℝ), (5 : ℝ)) := by
    rw [show sqA.geom = sqGeom from rfl, extentOf_sqGeom]
    norm_num [getCenterE]
  rw [hc]
  simp only [stR1, stA, initState]
  norm_num [atan2_five_zero]

/-- Dragging from `(5, 10)` to `(10, 5)` around pivot `(5, 5)` gives delta
angle `-π/2`. -/
lemma rot_delta_eval : deltaAngleAt stR1 ((10 : ℝ), (5 : ℝ)) = -(Real.pi / 2) := by
  simp only [deltaAngleAt, show stR1.rotationSelection = ⟨Real.pi / 2, (5, 5)⟩ from rfl]
  norm_num [atan2_zero_five]

/-- C1 (amended). On every rotate drag frame and every index-aligned pair,
the live shape's geometry becomes the snapshot geometry rotated by the frame's
delta angle about the snapshot's own extent center; but the attribute update
targets the snapshot shape, not the live one: the live shape's `angle`
attribute is unchanged and the snapshot's is overwritten with the JavaScript
remainder of `angle + deltaAngle` (which keeps the dividend's sign rather than
landing in `[0, 2π)`). -/
theorem rotate_drag_amended (st : TransformState) (c : Pt) (hm : st.mode = Mode.rotate)
    (i : Nat) (hip : i < st.prevSelections.length) (his : i < st.selections.length) :
    ∃ (hl : i < (handleDragEvent st c).selections.length)
      (hp : i < (handleDragEvent st c).prevSelections.length),
      ((handleDragEvent st c).selections.get ⟨i, hl⟩).geom =
        (st.prevSelections.get ⟨i, hip⟩).geom.map (fun p =>
          rotatePoint p (getCenterE (extentOf (st.prevSelections.get ⟨i, hip⟩).geom))
            (deltaAngleAt st c)) ∧
      ((handleDragEvent st c).selections.get ⟨i, hl⟩).angleAttr =
        (st.selections.get ⟨i, his⟩).angleAttr ∧
      ((handleDragEvent st c).prevSelections.get ⟨i, hp⟩).angleAttr =
        (st.prevSelections.get ⟨i, hip⟩).angleAttr.map (fun a =>
          jsMod (a + deltaAngleAt st c) (2 * Real.pi)) := by
  rw [handleDrag_rotate st c hm]
  have hl : i < (List.zipWith (fun (prev live : Feat) =>
      { live with geom := prev.geom.map (fun p =>
          rotatePoint p (getCenterE (extentOf prev.geom)) (deltaAngleAt st c)) })
      st.prevSelections st.selections).length := by
    rw [List.length_zipWith]
    omega
  refine ⟨by simpa [deltaAngleAt] using hl, by simpa using hip, ?_, ?_, ?_⟩
  · simp only [List.get_eq_getElem, List.getElem_zipWith, deltaAngleAt]
  · simp only [List.get_eq_getElem, List.getElem_zipWith]
  · simp only [List.get_eq_getElem, List.getElem_map]
    cases h : (st.prevSelections.get ⟨i, hip⟩).angleAttr <;>
      simp_all [deltaAngleAt, List.get_eq_getElem]

/-- C1 witness. The spec scenario: pivot `(5, 5)`, press `(5, 10)`, drag
`(10, 5)`: the delta angle is `-π/2`, the live square is the snapshot rotated
by `-π/2` about `(5, 5)`, the live attribute stays `0` and the snapshot's
becomes `-π/2` (not `3π/2`). -/
theorem rotate_drag_amended_witness :
    deltaAngleAt stR1 ((10 : ℝ), (5 : ℝ)) = -(Real.pi / 2) ∧
    ∃ (hl : 0 < (handleDragEvent stR1 (10, 5)).selections.length)
      (hp : 0 < (handleDragEvent stR1 (10, 5)).prevSelections.length),
      ((handleDragEvent stR1 (10, 5)).selections.get ⟨0, hl⟩).geom =
        [((0 : ℝ), (10 : ℝ)), (0, 0), (10, 0), (10, 10)] ∧
      ((handleDragEvent stR1 (10, 5)).selections.get ⟨0, hl⟩).angleAttr = some 0 ∧
      ((handleDragEvent stR1 (10, 5)).prevSelections.get ⟨0, hp⟩).angleAttr =
        some (-(Real.pi / 2)) := by
  refine ⟨rot_delta_eval, ?_⟩
  obtain ⟨hl, hp, g1, g2, g3⟩ := rotate_drag_amended stR1 (10, 5) rfl 0
    (by simp [stR1, stA, initState]) (by simp [stR1, stA, initState])
  refine ⟨hl, hp, ?_, ?_, ?_⟩
  · rw [g1, rot_delta_eval]
    have hget : stR1.prevSelections.get ⟨0, by simp [stR1, stA, initState]⟩ = sqA := rfl
    rw [hget, show sqA.geom = sqGeom from rfl, extentOf_sqGeom]
    norm_num [getCenterE, sqGeom, rotatePoint_neg_half_pi]
  · rw [g2]
    rfl
  · rw [g3, rot_delta_eval]
    have hget : stR1.prevSelections.get ⟨0, by simp [stR1, stA, initState]⟩ = sqA := rfl
    rw [hget, show sqA.angleAttr = some 0 from rfl]
    simp [jsMod_neg_half_pi]

/-- C1 counterexample. In the spec scenario no shape's attribute reaches
`3π/2`: the live square keeps `0` and the snapshot gets `-π/2`. -/
theorem rotate_attr_counterexample :
    (handleDragEvent (handleDownEvent stA (5, 10)
        (HitInput.handleHit Mode.rotate 0 sqA) false).1 (10, 5)).selections.map
      Feat.angleAttr = [some 0] ∧
    (handleDragEvent (handleDownEvent stA (5, 10)
        (HitInput.handleHit Mode.rotate 0 sqA) false).1 (10, 5)).prevSelections.map
      Feat.angleAttr = [some (-(Real.pi / 2))] ∧
    some (0 : ℝ) ≠ some (3 * Real.pi / 2) ∧
    some (-(Real.pi / 2)) ≠ some (3 * Real.pi / 2) := by
  have h1 : (handleDownEvent stA ((5 : ℝ), (10 : ℝ))
      (HitInput.handleHit Mode.rotate 0 sqA) false).1 = stR1 := by
    rw [rot_down_eval]
  have hd : atan2 (((10 : ℝ), (5 : ℝ)).2 - stR1.rotationSelection.center.2)
      (((10 : ℝ), (5 : ℝ)).1 - stR1.rotationSelection.center.1) -
      stR1.rotationSelection.angle = -(Real.pi / 2) := rot_delta_eval
  rw [h1, handleDrag_rotate stR1 _ rfl]
  have hpi := Real.pi_pos
  refine ⟨?_, ?_, ?_, ?_⟩
  · simp [stR1, stA, initState, sqA]
  · rw [show stR1.prevSelections = [sqA] from rfl]
    simp only [List.map_cons, List.map_nil, show sqA.angleAttr = some 0 from rfl]
    simp [sqA, hd, jsMod_neg_half_pi]
  · simp only [ne_eq, Option.some.injEq]
    intro hC
    nlinarith
  · simp only [ne_eq, Option.some.injEq]
    intro hC
    nlinarith

/-- C3 failing input. One rotate drag frame overwrites the snapshot shape's
`angle` attribute: it starts the gesture at `0` and holds `-π/2` after the
frame, so the snapshot is not read-only. -/
theorem snapshot_angle_mutated :
    (handleDownEvent stA (5, 10) (HitInput.handleHit Mode.rotate 0 sqA)
        false).1.prevSelections.map Feat.angleAttr = [some 0] ∧
    (handleDragEvent (handleDownEvent stA (5, 10)
        (HitInput.handleHit Mode.rotate 0 sqA) false).1 (10, 5)).prevSelections.map
      Feat.angleAttr = [some (-(Real.pi / 2))] ∧
    some (-(Real.pi / 2)) ≠ some (0 : ℝ) := by
  have h1 : (handleDownEvent stA ((5 : ℝ), (10 : ℝ))
      (HitInput.handleHit Mode.rotate 0 sqA) false).1 = stR1 := by
    rw [rot_down_eval]
  have hd : atan2 (((10 : ℝ), (5 : ℝ)).2 - stR1.rotationSelection.center.2)
      (((10 : ℝ), (5 : ℝ)).1 - stR1.rotationSelection.center.1) -
      stR1.rotationSelection.angle = -(Real.pi / 2) := rot_delta_eval
  rw [h1, handleDrag_rotate stR1 _ rfl]
  refine ⟨by simp [stR1, stA, initState, sqA], ?_, ?_⟩
  · rw [show stR1.prevSelections = [sqA] from rfl]
    simp only [List.map_cons, List.map_nil, show sqA.angleAttr = some 0 from rfl]
    simp [sqA, hd, jsMod_neg_half_pi]
  · simp only [ne_eq, Option.some.injEq]
    intro hC
    have hpi := Real.pi_pos
    nlinarith

/-- Every selected shape's translate handle is in the redrawn overlay. -/
lemma genTranslate_mem_drawHandles (sels : List Feat) (s : Feat) (hs : s ∈ sels) :
    genTranslateHandle s ∈ drawHandles sels := by
  obtain ⟨i, hi, hget⟩ := List.mem_iff_getElem.mp hs
  unfold drawHandles
  rw [List.mem_flatten]
  refine ⟨(if i = 0 then genHandles s else []) ++ [genTranslateHandle s], ?_, by simp⟩
  rw [List.mem_map]
  refine ⟨(i, s), ?_, rfl⟩
  rw [List.mem_iff_getElem]
  refine ⟨i, by simpa using hi, ?_⟩
  rw [List.getElem_enum, hget]

/-- The primary shape's rotate and scale handles are in the redrawn overlay. -/
lemma genHandles_mem_drawHandles (s : Feat) (rest : List Feat) (h : HandleF)
    (hh : h ∈ genHandles s) : h ∈ drawHandles (s :: rest) := by
  unfold drawHandles
  rw [List.mem_flatten]
  refine ⟨(if 0 = 0 then genHandles s else []) ++ [genTranslateHandle s], ?_, by simp [hh]⟩
  rw [List.mem_map]
  exact ⟨(0, s), by simp [List.enum_cons], rfl⟩

/-- C7 (amended). The overlay is cleared on every drag frame but only
repopulated on a selection change and at pointer-up: each drag frame leaves
the overlay source empty; the pointer-up and every selection-mutating
pointer-down rebuild it with `drawHandles`, whose output carries the first
selected shape's rotate/scale handles and a translate handle for every
selected shape. -/
theorem overlay_redraw_amended (st : TransformState) (c : Pt)
    (st2 : TransformState) (st3 : TransformState) (coord : Pt) (f : Feat) (add : Bool)
    (hmut : (selectFeature st3.selections (HitInput.bodyHit f) add).2.2 = true) :
    (handleDragEvent st c).handleSource = [] ∧
    (handleUpEvent st2).handleSource = drawHandles (handleUpEvent st2).selections ∧
    (handleDownEvent st3 coord (HitInput.bodyHit f) add).1.handleSource =
      drawHandles (handleDownEvent st3 coord (HitInput.bodyHit f) add).1.selections ∧
    (∀ (sels : List Feat) (s : Feat), s ∈ sels →
      genTranslateHandle s ∈ drawHandles sels) ∧
    (∀ (s : Feat) (rest : List Feat) (h : HandleF), h ∈ genHandles s →
      h ∈ drawHandles (s :: rest)) := by
  refine ⟨handleDrag_handleSource st c, handleUp_handleSource st2, ?_,
    genTranslate_mem_drawHandles, genHandles_mem_drawHandles⟩
  rw [handleDown_body st3 coord f add]
  simp [hmut]

/-- C7 witness. A mutating pointer-down exists (pressing the square's body on
the fresh state appends it), and the rebuilt overlay for the square contains
its translate handle. -/
theorem overlay_redraw_amended_witness :
    (selectFeature stA.selections (HitInput.bodyHit sqB) false).2.2 = true ∧
    (handleDownEvent stA (5, 5) (HitInput.bodyHit sqB) false).1.handleSource =
      drawHandles (handleDownEvent stA (5, 5) (HitInput.bodyHit sqB) false).1.selections ∧
    genTranslateHandle sqA ∈ drawHandles [sqA] := by
  have hmut : (selectFeature stA.selections (HitInput.bodyHit sqB) false).2.2 = true := by
    simp [selectFeature, stA, initState, sqA, sqB, List.findIdx_cons]
  have h := overlay_redraw_amended stA (0, 0) stA stA (5, 5) sqB false hmut
  exact ⟨hmut, h.2.2.1, h.2.2.2.1 [sqA] sqA (by simp)⟩

/-- C7 counterexample. After a drag frame the overlay source is empty even
though the selection is nonempty, so it does not hold the selection's handles
(a rebuild would be nonempty). -/
theorem overlay_empty_during_drag_counterexample :
    (handleDragEvent (handleDownEvent stA (5, 5)
        (HitInput.bodyHit sqA) false).1 (6, 5)).handleSource = [] ∧
    drawHandles ((handleDragEvent (handleDownEvent stA (5, 5)
        (HitInput.bodyHit sqA) false).1 (6, 5)).selections) ≠ [] := by
  refine ⟨handleDrag_handleSource _ _, ?_⟩
  have hsf : selectFeature stA.selections (HitInput.bodyHit sqA) false =
      ([sqA], some (HitResult.isBody sqA), false) := by
    simp [selectFeature, stA, initState, sqA, List.findIdx_cons]
  have hdown := handleDown_body stA ((5 : ℝ), (5 : ℝ)) sqA false
  rw [hsf] at hdown
  rw [hdown, handleDrag_translate _ _ rfl]
  refine List.ne_nil_of_mem
    (genTranslate_mem_drawHandles _ _ (List.mem_map.mpr ⟨sqA, ?_, rfl⟩))
  simp

/-- Every end notification block contains the generic end, and end
notification membership determines the mode block. -/
lemma endEvents_no_start_during (m : Mode) :
    EvType.transformend ∈ endEvents m := by
  cases m <;> simp [endEvents]

/-- C6 (amended). A gesture's notification trace is `mousedown`, the mode's
start pair, one during pair per drag frame, `mouseup`, and the end pair
exactly when at least one drag frame ran; hence an end notification is
dispatched iff the gesture dragged. A hit-less press emits only `mousedown`
and suppresses the rest of the sequence. A press-release with a hit and no
drag still emits the start pair besides `mousedown` and `mouseup`. -/
theorem end_events_iff_drag (st : TransformState) (coord : Pt) (hit : HitInput)
    (add : Bool) (drags : List Pt)
    (hev : st.events = []) (hT : st.isTransformed = false)
    (hok : (handleDownEvent st coord hit add).2 = true) :
    ((runGesture st coord hit add drags).events =
      [EvType.mousedown] ++ startEvents (handleDownEvent st coord hit add).1.mode ++
      (List.replicate drags.length
        (duringEvents (handleDownEvent st coord hit add).1.mode)).flatten ++
      [EvType.mouseup] ++
      (if drags = [] then []
       else endEvents (handleDownEvent st coord hit add).1.mode)) ∧
    (∀ e : EvType, isEndEv e = true →
      (e ∈ (runGesture st coord hit add drags).events ↔
        (drags ≠ [] ∧ e ∈ endEvents (handleDownEvent st coord hit add).1.mode))) ∧
    ((handleDownEvent st coord HitInput.nothing add).1.events = [EvType.mousedown] ∧
      (handleDownEvent st coord HitInput.nothing add).2 = false) := by
  have heq : (runGesture st coord hit add drags).events =
      [EvType.mousedown] ++ startEvents (handleDownEvent st coord hit add).1.mode ++
      (List.replicate drags.length
        (duringEvents (handleDownEvent st coord hit add).1.mode)).flatten ++
      [EvType.mouseup] ++
      (if drags = [] then []
       else endEvents (handleDownEvent st coord hit add).1.mode) := by
    rw [runGesture_ok _ _ _ _ _ hok, handleUp_events, foldlDrag_events, foldlDrag_mode,
      handleDown_ok_events _ _ _ _ hok, hev]
    by_cases hd : drags = []
    · subst hd
      simp [handleDown_isTransformed, hT]
    · rw [foldlDrag_isTransformed _ _ hd]
      simp [hd]
  refine ⟨heq, ?_, ?_⟩
  · intro e he
    rw [heq]
    simp only [List.mem_append, List.mem_singleton, List.mem_flatten]
    constructor
    · rintro ((((h1 | h2) | h3) | h4) | h5)
      · rw [h1] at he
        simp [isEndEv] at he
      · exact absurd he (by simp [startEvents_no_end _ _ h2])
      · obtain ⟨l, hl, hel⟩ := h3
        rw [List.mem_replicate] at hl
        rw [hl.2] at hel
        exact absurd he (by simp [duringEvents_no_end _ _ hel])
      · rw [h4] at he
        simp [isEndEv] at he
      · by_cases hd : drags = []
        · rw [if_pos hd] at h5
          simp at h5
        · rw [if_neg hd] at h5
          exact ⟨hd, h5⟩
    · rintro ⟨hd, hmem⟩
      right
      rw [if_neg hd]
      exact hmem
  · rw [handleDown_nothing]
    exact ⟨by simp [hev], rfl⟩

/-- C6 witness. A press-release on the square's body with no drag frame emits
`mousedown`, `translatestart`, `transformstart`, `mouseup` and no end
notifications; a one-frame drag adds the during pair and both end
notifications. -/
theorem end_events_iff_drag_witness :
    (runGesture stA (5, 5) (HitInput.bodyHit sqA) false []).events =
      [EvType.mousedown, EvType.translatestart, EvType.transformstart, EvType.mouseup] ∧
    (EvType.transformend ∈
        (runGesture stA (5, 5) (HitInput.bodyHit sqA) false [(6, 5)]).events) ∧
    (EvType.transformend ∉
        (runGesture stA (5, 5) (HitInput.bodyHit sqA) false []).events) := by
  have hsf : selectFeature stA.selections (HitInput.bodyHit sqA) false =
      ([sqA], some (HitResult.isBody sqA), false) := by
    simp [selectFeature, stA, initState, sqA, List.findIdx_cons]
  have hdown := handleDown_body stA ((5 : ℝ), (5 : ℝ)) sqA false
  rw [hsf] at hdown
  have hok : (handleDownEvent stA ((5 : ℝ), (5 : ℝ)) (HitInput.bodyHit sqA) false).2 =
      true := by
    rw [hdown]
  have hmode : (handleDownEvent stA ((5 : ℝ), (5 : ℝ)) (HitInput.bodyHit sqA) false).1.mode =
      Mode.translate := by
    rw [hdown]
  have h0 := end_events_iff_drag stA (5, 5) (HitInput.bodyHit sqA) false [] rfl rfl hok
  have h1 := end_events_iff_drag stA (5, 5) (HitInput.bodyHit sqA) false [(6, 5)] rfl rfl hok
  refine ⟨?_, ?_, ?_⟩
  · rw [h0.1, hmode]
    simp [startEvents]
  · rw [(h1.2.1 EvType.transformend rfl)]
    rw [hmode]
    simp [endEvents]
  · rw [(h0.2.1 EvType.transformend rfl)]
    simp

/-- C6 counterexample. The no-drag press-release on a body does not emit only
`mousedown` and `mouseup`: the start notifications are in the trace too. -/
theorem no_drag_start_events_counterexample :
    EvType.translatestart ∈
      (runGesture stA (5, 5) (HitInput.bodyHit sqA) false []).events ∧
    (runGesture stA (5, 5) (HitInput.bodyHit sqA) false []).events ≠
      [EvType.mousedown, EvType.mouseup] := by
  have hsf : selectFeature stA.selections (HitInput.bodyHit sqA) false =
      ([sqA], some (HitResult.isBody sqA), false) := by
    simp [selectFeature, stA, initState, sqA, List.findIdx_cons]
  have hdown := handleDown_body stA ((5 : ℝ), (5 : ℝ)) sqA false
  rw [hsf] at hdown
  have hok : (handleDownEvent stA ((5 : ℝ), (5 : ℝ)) (HitInput.bodyHit sqA) false).2 =
      true := by
    rw [hdown]
  have hev : (runGesture stA (5, 5) (HitInput.bodyHit sqA) false []).events =
      [EvType.mousedown, EvType.translatestart, EvType.transformstart, EvType.mouseup] := by
    rw [runGesture_ok _ _ _ _ _ hok, List.foldl_nil, handleUp_events, hdown]
    simp [startEvents, stA, initState]
  rw [hev]
  refine ⟨by simp, by simp⟩

/-- Grabbing the square's ring-6 scale handle records anchor `(0, 0)` and
local start coordinate `(10, 10)`. -/
lemma scale_down6_eval (st : TransformState) (coord : Pt) (add : Bool) :
    handleDownEvent st coord (HitInput.handleHit Mode.scale 6 sqA) add =
      ({ st with
          prevSelections := st.selections
          mode := Mode.scale
          startCoord := coord
          scalingSelection := scaleSel6
          events := st.events ++
            [EvType.mousedown, EvType.scalestart, EvType.transformstart] }, true) := by
  rw [handleDown_scale]
  rw [show sqA.angleAttr.getD 0 = 0 from rfl, show sqA.geom = sqGeom from rfl,
    orientedBoxCoords_sqGeom]
  simp only [scaleSel6]
  norm_num [boxRing, calcScaleHandleCoord, center2, rotatePoint_zero, min_def, max_def]
  refine ⟨?_, ?_⟩
  · exact calcDistance_horiz
  · exact calcDistance_vert

/-- Dragging the grabbed corner from `(10, 10)` to `(20, 20)` doubles both
axes. -/
lemma scale_factors6_eval : scaleFactorsAt scaleSel6 ((20 : ℝ), (20 : ℝ)) = (2, 2) := by
  simp [scaleFactorsAt, scaleSel6, scaleDeltas, neg_zero, rotatePoint_zero]
  norm_num

/-- Doubling the square about its bottom-left corner. -/
lemma scale_apply6_eval : applyScaleToShape 2 2 2 sqA =
    [((0 : ℝ), (0 : ℝ)), (20, 0), (20, 20), (0, 20)] := by
  simp only [applyScaleToShape]
  rw [show sqA.angleAttr.getD 0 = 0 from rfl, show sqA.geom = sqGeom from rfl,
    orientedBoxCoords_sqGeom]
  norm_num [boxRing, calcScaleHandleCoord, center2, rotatePoint_zero, neg_zero,
    scalePoint, sqGeom, min_def, max_def]

/-- C2 (amended). The handle sitting at `(10, 10)` carries ring index 6, not
4: pressing it and dragging to `(20, 20)` records the opposite corner `(0, 0)`
as anchor, computes `scaleX = scaleY = 2`, and produces the square with
corners `(0,0)`, `(20,0)`, `(20,20)`, `(0,20)`. -/
theorem scale_square_scenario_amended :
    (handleDownEvent stA (10, 10)
        (HitInput.handleHit Mode.scale 6 sqA) false).1.scalingSelection.oppositeCoord =
      ((0 : ℝ), (0 : ℝ)) ∧
    scaleFactorsAt (handleDownEvent stA (10, 10)
        (HitInput.handleHit Mode.scale 6 sqA) false).1.scalingSelection
      ((20 : ℝ), (20 : ℝ)) = (2, 2) ∧
    (handleDragEvent (handleDownEvent stA (10, 10)
        (HitInput.handleHit Mode.scale 6 sqA) false).1 (20, 20)).selections.map Feat.geom =
      [[((0 : ℝ), (0 : ℝ)), (20, 0), (20, 20), (0, 20)]] := by
  have hdown : (handleDownEvent stA ((10 : ℝ), (10 : ℝ))
      (HitInput.handleHit Mode.scale 6 sqA) false).1 =
      { stA with
          prevSelections := stA.selections
          mode := Mode.scale
          startCoord := (10, 10)
          scalingSelection := scaleSel6
          events := stA.events ++
            [EvType.mousedown, EvType.scalestart, EvType.transformstart] } := by
    rw [scale_down6_eval]
  rw [hdown]
  refine ⟨rfl, ?_, ?_⟩
  · exact scale_factors6_eval
  · rw [handleDrag_scale _ _ rfl]
    simp only [show ({ stA with
        prevSelections := stA.selections
        mode := Mode.scale
        startCoord := ((10 : ℝ), (10 : ℝ))
        scalingSelection := scaleSel6
        events := stA.events ++
          [EvType.mousedown, EvType.scalestart, EvType.transformstart] } :
        TransformState).scalingSelection = scaleSel6 from rfl, scale_factors6_eval]
    simp only [show stA.selections = [sqA] from rfl,
      show scaleSel6.oppositeIdx = 2 from rfl]
    simp only [List.zipWith_cons_cons, List.zipWith_nil_right, scale_apply6_eval]
    simp

/-- C2 counterexample. Ring index 4 sits at `(10, 0)`, not `(10, 10)`; the
handle at `(10, 10)` carries index 6: in the generated handle set, the scale
handle whose geometry is the point `(10, 10)` is the one with index 6. -/
theorem scale_handle_index_counterexample :
    calcScaleHandleCoord (orientedBoxCoords sqGeom 0) 4 = ((10 : ℝ), (0 : ℝ)) ∧
    calcScaleHandleCoord (orientedBoxCoords sqGeom 0) 6 = ((10 : ℝ), (10 : ℝ)) ∧
    ((10 : ℝ), (0 : ℝ)) ≠ (((10 : ℝ), (10 : ℝ)) : Pt) ∧
    ((genHandles sqA).getD 5 ⟨true, [], 0, Mode.idle, -1⟩).hGeom = [((10 : ℝ), (0 : ℝ))] ∧
    ((genHandles sqA).getD 5 ⟨true, [], 0, Mode.idle, -1⟩).index = 4 := by
  have h4 : calcScaleHandleCoord (orientedBoxCoords sqGeom 0) 4 = ((10 : ℝ), (0 : ℝ)) := by
    rw [orientedBoxCoords_sqGeom]
    norm_num [boxRing, calcScaleHandleCoord]
  have h6 : calcScaleHandleCoord (orientedBoxCoords sqGeom 0) 6 = ((10 : ℝ), (10 : ℝ)) := by
    rw [orientedBoxCoords_sqGeom]
    norm_num [boxRing, calcScaleHandleCoord]
  have hgen : genHandles sqA = ⟨true, [calcScaleHandleCoord (orientedBoxCoords sqGeom 0) 7],
      1, Mode.rotate, -1⟩ :: (List.range 8).map (fun i =>
        ⟨true, [calcScaleHandleCoord (orientedBoxCoords sqGeom 0) i], 1, Mode.scale, i⟩) := by
    simp [genHandles, sqA]
  refine ⟨h4, h6, by norm_num [Prod.ext_iff], ?_, ?_⟩
  · rw [hgen]
    norm_num [List.range_succ, h4]
  · rw [hgen]
    norm_num [List.range_succ]

/-- C8 (amended). For every scale drag whose factors are nonnegative, the
anchor ring position at index `(handleIdx + 4) mod 8` is an exact fixed point:
the drag's own per-shape transform leaves that ring position of the freshly
recomputed oriented box equal to its value before the drag, for every stored
angle and every nonempty geometry. (A negative factor reflects the box and
moves the anchor ring position to the other side.) -/
theorem scale_anchor_fixed_point (f : Feat) (hg : f.geom ≠ []) (handleIdx : Nat)
    (sX sY : ℝ) (hX : 0 ≤ sX) (hY : 0 ≤ sY) :
    calcScaleHandleCoord
      (orientedBoxCoords (applyScaleToShape ((handleIdx + 4) % 8) sX sY f)
        (f.angleAttr.getD 0)) ((handleIdx + 4) % 8) =
      calcScaleHandleCoord (orientedBoxCoords f.geom (f.angleAttr.getD 0))
        ((handleIdx + 4) % 8) := by
  have hidx : (handleIdx + 4) % 8 < 8 := Nat.mod_lt _ (by norm_num)
  have h := anchor_fixed_core f.geom hg (f.angleAttr.getD 0) sX sY hX hY
    ((handleIdx + 4) % 8) hidx
  simpa [applyScaleToShape] using h

/-- C8 witness. Doubling and tripling the square from handle 2 (anchor ring
index 6, the corner `(10, 10)`) keeps that corner of the recomputed box. -/
theorem scale_anchor_fixed_point_witness :
    calcScaleHandleCoord
      (orientedBoxCoords (applyScaleToShape ((2 + 4) % 8) 2 3 sqA)
        (sqA.angleAttr.getD 0)) ((2 + 4) % 8) = ((10 : ℝ), (10 : ℝ)) := by
  have h := scale_anchor_fixed_point sqA (by simp [sqA, sqGeom]) 2 2 3
    (by norm_num) (by norm_num)
  rw [h, show sqA.angleAttr.getD 0 = 0 from rfl, show sqA.geom = sqGeom from rfl,
    orientedBoxCoords_sqGeom]
  norm_num [boxRing, calcScaleHandleCoord]

/-- C8 counterexample. With the negative vertical factor of the fixture flip
drag (handle 7, anchor ring index 3 at `(5, 0)`), the anchor moves to
`(5, -10)`: the fixed point fails for a flipping drag, against the claim's
"for every scale drag". -/
theorem scale_anchor_negative_counterexample :
    calcScaleHandleCoord (orientedBoxCoords sqGeom 0) 3 = ((5 : ℝ), (0 : ℝ)) ∧
    calcScaleHandleCoord (orientedBoxCoords (applyScaleToShape 3 1 (-1) sqA) 0) 3 =
      ((5 : ℝ), (-10 : ℝ)) ∧
    ((5 : ℝ), (-10 : ℝ)) ≠ (((5 : ℝ), (0 : ℝ)) : Pt) := by
  refine ⟨?_, ?_, by norm_num [Prod.ext_iff]⟩
  · rw [orientedBoxCoords_sqGeom]
    norm_num [boxRing, calcScaleHandleCoord, center2, min_def, max_def]
  · rw [scale_g1_apply, orientedBoxCoords_angle_zero _ (by simp)]
    norm_num [extentOf, listMin, listMax, boxRing, calcScaleHandleCoord, center2,
      min_def, max_def]

/-- C10. Pressing an already-selected body with the additive modifier removes
it from the selection, yet the hit is returned and a translate gesture starts:
the mode becomes translate, the start notifications fire, and a drag frame
translates exactly the remaining shapes; with duplicate-free ids the
deselected shape is not among them. -/
theorem additive_deselect_still_translates (st : TransformState) (coord : Pt)
    (f : Feat) (c : Pt) (hev : st.events = [])
    (hfound : st.selections.findIdx (fun s => s.fid = f.fid) < st.selections.length) :
    (handleDownEvent st coord (HitInput.bodyHit f) true).1.selections =
      st.selections.eraseIdx (st.selections.findIdx (fun s => s.fid = f.fid)) ∧
    (selectFeature st.selections (HitInput.bodyHit f) true).2.1 =
      some (HitResult.isBody f) ∧
    (handleDownEvent st coord (HitInput.bodyHit f) true).1.mode = Mode.translate ∧
    (handleDownEvent st coord (HitInput.bodyHit f) true).1.events =
      [EvType.mousedown, EvType.translatestart, EvType.transformstart] ∧
    (handleDragEvent (handleDownEvent st coord (HitInput.bodyHit f) true).1 c).selections =
      (st.selections.eraseIdx (st.selections.findIdx (fun s => s.fid = f.fid))).map
        (fun (s : Feat) =>
          { s with geom := s.geom.map (translatePoint (c.1 - coord.1) (c.2 - coord.2)) }) ∧
    ((st.selections.map Feat.fid).Nodup →
      f.fid ∉ ((handleDragEvent (handleDownEvent st coord
        (HitInput.bodyHit f) true).1 c).selections.map Feat.fid)) := by
  have hsf : selectFeature st.selections (HitInput.bodyHit f) true =
      (st.selections.eraseIdx (st.selections.findIdx (fun s => s.fid = f.fid)),
       some (HitResult.isBody f), true) := by
    simp only [selectFeature]
    rw [if_pos hfound]
    simp
  have hdown := handleDown_body st coord f true
  rw [hsf] at hdown
  have hdrag := handleDrag_translate
    (handleDownEvent st coord (HitInput.bodyHit f) true).1 c (by rw [hdown])
  have hprev : (handleDownEvent st coord (HitInput.bodyHit f) true).1.prevCoord =
      coord := by
    rw [hdown]
  have hsels : (handleDownEvent st coord (HitInput.bodyHit f) true).1.selections =
      st.selections.eraseIdx (st.selections.findIdx (fun s => s.fid = f.fid)) := by
    rw [hdown]
  have hdragsel : (handleDragEvent
      (handleDownEvent st coord (HitInput.bodyHit f) true).1 c).selections =
      (st.selections.eraseIdx (st.selections.findIdx (fun s => s.fid = f.fid))).map
        (fun (s : Feat) =>
          { s with geom := s.geom.map (translatePoint (c.1 - coord.1) (c.2 - coord.2)) }) := by
    rw [hdrag]
    rw [hprev, hsels]
  refine ⟨hsels, by rw [hsf], by rw [hdown], by rw [hdown]; simp [hev], hdragsel, ?_⟩
  intro hnd hmem
  rw [hdragsel] at hmem
  rw [List.map_map] at hmem
  obtain ⟨s, hs, hfid⟩ := List.mem_map.mp hmem
  obtain ⟨j, hj, hjk⟩ := List.mem_eraseIdx_iff_getElem?.mp hs
  have hjlen : j < st.selections.length := by
    by_contra hc
    rw [List.getElem?_eq_none (by omega)] at hjk
    exact Option.noConfusion hjk
  rw [List.getElem?_eq_getElem hjlen] at hjk
  have hsj : st.selections[j] = s := Option.some.inj hjk
  have hjlen2 : j < (st.selections.map Feat.fid).length := by
    simpa using hjlen
  have hflen2 : st.selections.findIdx (fun s => s.fid = f.fid) <
      (st.selections.map Feat.fid).length := by
    simpa using hfound
  have hfj : (st.selections.map Feat.fid)[j] = f.fid := by
    rw [List.getElem_map, hsj]
    exact hfid
  have hfi : (st.selections.map Feat.fid)[st.selections.findIdx
      (fun s => s.fid = f.fid)] = f.fid := by
    rw [List.getElem_map]
    have := @List.findIdx_getElem _ (fun s => decide (s.fid = f.fid)) st.selections hfound
    simpa using this
  have hj2 : j = st.selections.findIdx (fun s => s.fid = f.fid) :=
    (hnd.getElem_inj_iff).mp (hfj.trans hfi.symm)
  exact hj hj2

/-- C10 witness. With both squares selected, an additive press on the first
removes it, starts a translate gesture, and the drag frame moves only the
second square. -/
theorem additive_deselect_witness :
    stAB.selections.findIdx (fun s => s.fid = sqA.fid) < stAB.selections.length ∧
    (handleDownEvent stAB (5, 5) (HitInput.bodyHit sqA) true).1.selections = [sqB] ∧
    (handleDownEvent stAB (5, 5) (HitInput.bodyHit sqA) true).1.mode = Mode.translate ∧
    sqA.fid ∉ ((handleDragEvent (handleDownEvent stAB (5, 5)
      (HitInput.bodyHit sqA) true).1 (6, 5)).selections.map Feat.fid) := by
  have hfound : stAB.selections.findIdx (fun s => s.fid = sqA.fid) <
      stAB.selections.length := by
    simp [stAB, initState, sqA, sqB, List.findIdx_cons]
  have h := additive_deselect_still_translates stAB (5, 5) sqA (6, 5) rfl hfound
  refine ⟨hfound, ?_, h.2.2.1, ?_⟩
  · rw [h.1]
    simp [stAB, initState, sqA, sqB, List.findIdx_cons]
  · exact h.2.2.2.2.2 (by simp [stAB, initState, sqA, sqB])

end OlTransform

end
